import Mathlib

/-
Verification of the two-point-difference jump-detection core
(src/stcal/jump/twopoint_difference.py).

Floating-point data is modelled by an exact value type F with NaN and the
two infinities over the rationals.  NumPy reductions (nanmedian, nanargmax,
nanargmin, nanmin, nanmax, argmax) are embedded as list functions with
NumPy's documented NaN semantics.  Quality-flag (gdq) arrays are modelled as
total functions from indices to natural-number bit fields together with
explicit shape parameters; in-place NumPy mutation is modelled by returning
the updated array.
-/

set_option maxHeartbeats 1000000

namespace Stcal

/-- Model of an IEEE double as used by the source: NaN, the infinities,
or an exact finite value (a rational). -/
inductive F where
  | nan : F
  | inf : F
  | ninf : F
  | fin : ℚ → F
deriving DecidableEq

/-- NaN test (np.isnan). -/
def fisnan : F → Bool
  | F.nan => true
  | _ => false

/-- Negation. -/
def fneg : F → F
  | F.nan => F.nan
  | F.inf => F.ninf
  | F.ninf => F.inf
  | F.fin a => F.fin (-a)

/-- Rational addition in kernel-computable form (Batteries marks Rat.add
irreducible, which blocks decidability checks); qadd_eq below certifies it
against the standard addition. -/
def qadd (a b : ℚ) : ℚ := mkRat (a.num * b.den + b.num * a.den) (a.den * b.den)

/-- Rational division in kernel-computable form; qdiv_eq below certifies
it against the standard division (with division by zero yielding 0, a case
fdiv guards before calling). -/
def qdiv (a b : ℚ) : ℚ :=
  if 0 ≤ b.num then mkRat (a.num * b.den) (a.den * b.num.toNat)
  else mkRat (-(a.num * b.den)) (a.den * (-b.num).toNat)

/-- Addition with IEEE NaN/infinity propagation. -/
def fadd : F → F → F
  | F.nan, _ => F.nan
  | _, F.nan => F.nan
  | F.inf, F.ninf => F.nan
  | F.ninf, F.inf => F.nan
  | F.inf, _ => F.inf
  | _, F.inf => F.inf
  | F.ninf, _ => F.ninf
  | _, F.ninf => F.ninf
  | F.fin a, F.fin b => F.fin (qadd a b)

/-- Subtraction. -/
def fsub (x y : F) : F := fadd x (fneg y)

/-- Absolute value. -/
def fabs : F → F
  | F.nan => F.nan
  | F.inf => F.inf
  | F.ninf => F.inf
  | F.fin a => F.fin |a|

/-- Strict less-than; any comparison with NaN is false. -/
def flt : F → F → Bool
  | F.nan, _ => false
  | _, F.nan => false
  | F.ninf, F.ninf => false
  | F.ninf, _ => true
  | _, F.ninf => false
  | F.inf, _ => false
  | F.fin _, F.inf => true
  | F.fin a, F.fin b => decide (a < b)

/-- Non-strict less-or-equal; any comparison with NaN is false. -/
def fle : F → F → Bool
  | F.nan, _ => false
  | _, F.nan => false
  | F.ninf, _ => true
  | F.inf, F.inf => true
  | _, F.ninf => false
  | F.inf, _ => false
  | F.fin _, F.inf => true
  | F.fin a, F.fin b => decide (a ≤ b)

/-- Division with IEEE semantics: finite/0 is a signed infinity, 0/0 is NaN,
finite/infinite is 0 (signed zeros collapsed to 0). -/
def fdiv : F → F → F
  | F.nan, _ => F.nan
  | _, F.nan => F.nan
  | F.inf, F.inf => F.nan
  | F.inf, F.ninf => F.nan
  | F.ninf, F.inf => F.nan
  | F.ninf, F.ninf => F.nan
  | F.inf, F.fin b => if b < 0 then F.ninf else F.inf
  | F.ninf, F.fin b => if b < 0 then F.inf else F.ninf
  | F.fin _, F.inf => F.fin 0
  | F.fin _, F.ninf => F.fin 0
  | F.fin a, F.fin b =>
      if b = 0 then (if a = 0 then F.nan else if 0 < a then F.inf else F.ninf)
      else F.fin (qdiv a b)

/-- Square root of a non-negative rational, exact whenever numerator and
denominator are perfect squares (every value reaching a square root in the
theorems below is of that form; elsewhere this floor-based stand-in is an
approximation of the irrational result). -/
def ratSqrt (q : ℚ) : ℚ := mkRat (Nat.sqrt q.num.toNat) (Nat.sqrt q.den)

/-- Square root (np.sqrt): NaN for NaN or negative arguments. -/
def fsqrt : F → F
  | F.nan => F.nan
  | F.inf => F.inf
  | F.ninf => F.nan
  | F.fin q => if q < 0 then F.nan else F.fin (ratSqrt q)

/-- Number of NaN entries of a list (np.sum(np.isnan(...))). -/
def countNan (xs : List F) : ℕ := xs.countP (fun x => fisnan x)

/-- Insert into a list sorted by fle (used only on NaN-free lists, where
fle is a total order). -/
def finsert (x : F) : List F → List F
  | [] => [x]
  | y :: ys => if fle x y then x :: y :: ys else y :: finsert x ys

/-- Insertion sort by fle (used only on NaN-free lists). -/
def fsort : List F → List F
  | [] => []
  | x :: xs => finsert x (fsort xs)

/-- Median ignoring NaNs (np.nanmedian): drop NaNs, sort, take the middle
element, or the mean of the two middle elements for an even count; NaN for
an empty (all-NaN) input. -/
def nanmedian (xs : List F) : F :=
  let v := fsort (xs.filter (fun x => !fisnan x))
  let n := v.length
  if n = 0 then F.nan
  else if n % 2 = 1 then v.getD (n / 2) F.nan
  else fdiv (fadd (v.getD (n / 2 - 1) F.nan) (v.getD (n / 2) F.nan)) (F.fin 2)

/-- Accumulator scan for nanargmax: keep the first index of the strictly
largest non-NaN value seen so far. -/
def nanargmaxAux : List F → ℕ → Option (ℕ × F) → Option (ℕ × F)
  | [], _, acc => acc
  | x :: rest, i, acc =>
      nanargmaxAux rest (i + 1)
        (if fisnan x then acc
         else match acc with
           | none => some (i, x)
           | some (j, m) => if flt m x then some (i, x) else some (j, m))

/-- Index of the largest non-NaN value, first occurrence on ties
(np.nanargmax); none when every entry is NaN, where NumPy raises
ValueError. -/
def nanargmax (xs : List F) : Option ℕ :=
  (nanargmaxAux xs 0 none).map Prod.fst

/-- Accumulator scan for nanargmin. -/
def nanargminAux : List F → ℕ → Option (ℕ × F) → Option (ℕ × F)
  | [], _, acc => acc
  | x :: rest, i, acc =>
      nanargminAux rest (i + 1)
        (if fisnan x then acc
         else match acc with
           | none => some (i, x)
           | some (j, m) => if flt x m then some (i, x) else some (j, m))

/-- Index of the smallest non-NaN value, first occurrence on ties
(np.nanargmin); none when every entry is NaN. -/
def nanargmin (xs : List F) : Option ℕ :=
  (nanargminAux xs 0 none).map Prod.fst

/-- Accumulator scan for NumPy plain argmax, where NaN is treated as
maximal: the first NaN wins, otherwise the first signed maximum. -/
def argmaxNumpyAux : List F → ℕ → ℕ → F → ℕ
  | [], _, bi, _ => bi
  | x :: rest, i, bi, bv =>
      if (fisnan x && !fisnan bv) || (!fisnan bv && flt bv x) then
        argmaxNumpyAux rest (i + 1) i x
      else
        argmaxNumpyAux rest (i + 1) bi bv

/-- NumPy plain argmax (np.argmax): NaN propagates as the maximum, so the
index of the first NaN is returned when one is present; none on an empty
list. -/
def argmaxNumpy : List F → Option ℕ
  | [] => none
  | x :: rest => some (argmaxNumpyAux rest 1 0 x)

/-- Minimum ignoring NaNs (np.nanmin); NaN when every entry is NaN. -/
def nanminList (xs : List F) : F :=
  match xs.filter (fun x => !fisnan x) with
  | [] => F.nan
  | y :: ys => ys.foldl (fun a b => if flt b a then b else a) y

/-- Maximum ignoring NaNs (np.nanmax); NaN when every entry is NaN. -/
def nanmaxList (xs : List F) : F :=
  match xs.filter (fun x => !fisnan x) with
  | [] => F.nan
  | y :: ys => ys.foldl (fun a b => if flt a b then b else a) y

/-- Embeds calc_med_first_diffs_dim1 (twopoint_difference.py lines
519-532): for a single pixel's vector of first differences, with 4+ usable
(non-NaN) entries clip the entry of largest absolute value and return the
nanmedian of the rest; with exactly 3 return the plain nanmedian; with
exactly 2 return the entry of smallest absolute value; otherwise NaN.
The none fallbacks are unreachable given the usable counts. -/
def calc_med_first_diffs_dim1 (xs : List F) : F :=
  let numUsable := xs.length - countNan xs
  if 4 ≤ numUsable then
    match nanargmax (xs.map fabs) with
    | some i => nanmedian (xs.eraseIdx i)
    | none => F.nan
  else if numUsable = 3 then nanmedian xs
  else if numUsable = 2 then
    match nanargmin (xs.map fabs) with
    | some i => xs.getD i F.nan
    | none => F.nan
  else F.nan

/-- Embeds calc_med_first_diffs_dim2 (twopoint_difference.py lines
535-550).  The 2-D slab is represented row-major flattened, which is
faithful because every operation of the source acts on the flat C-order
data: size and the isnan sum range over both axes, np.argmax /
np.nanargmin flatten before unravel_index, and the indexing and nanmedian
calls consume the flat positions again.  Note two quirks of the source
kept here: the 4+ branch clips np.argmax of the signed values (NaN
propagates as the maximum, so the first NaN is clipped when one is
present), and the 2-usable branch indexes by np.nanargmin of the signed
values (the unused TEST intermediate of the source, np.nanargmin of the
absolute values, is dead code and dropped). -/
def calc_med_first_diffs_dim2 (flat : List F) : F :=
  let numUsable := flat.length - countNan flat
  if 4 ≤ numUsable then
    match argmaxNumpy flat with
    | some i => nanmedian (flat.eraseIdx i)
    | none => F.nan
  else if numUsable = 3 then nanmedian flat
  else if numUsable = 2 then
    match nanargmin flat with
    | some i => flat.getD i F.nan
    | none => F.nan
  else F.nan

/-- Embeds the per-pixel computation of calc_med_first_diffs_dim4
(twopoint_difference.py lines 553-587) on one pixel's column of the
reshaped (nints*ndiffs, nrows, ncols) stack.  The vectorized source
processes each (row, col) column independently (axis-0 nanargmax,
assignment and reductions touch a single column per pixel, and the
usable-count tiers partition the pixels), so the cube function below is
this map applied pixelwise.  With 4+ usable entries the source clips
np.nanargmax of the signed column (no absolute value, unlike dim1), sets
it NaN and takes the nanmedian of the column; with 3 the nanmedian; with
2 it sets the entry of larger absolute value to NaN and takes np.nanmin
of the column; with fewer than 2 the result is NaN. -/
def calc_med_first_diffs_dim4_pixel (col : List F) : F :=
  let numUsable := col.length - countNan col
  if 4 ≤ numUsable then
    match nanargmax col with
    | some i => nanmedian (col.set i F.nan)
    | none => F.nan
  else if numUsable = 3 then nanmedian col
  else if numUsable = 2 then
    match nanargmax (col.map fabs) with
    | some i => nanminList (col.set i F.nan)
    | none => F.nan
  else F.nan

/-- Embeds calc_med_first_diffs_dim4 on the full 4-D first-difference cube
(shape nints, ndiffs, nrows, ncols): the source reshapes C-order to
(nints*ndiffs, nrows, ncols) and computes each pixel's median from its
column, as described at calc_med_first_diffs_dim4_pixel. -/
def calc_med_first_diffs_dim4 (ni nd nr nc : ℕ) (cube : ℕ → ℕ → ℕ → ℕ → F) :
    ℕ → ℕ → F :=
  fun r c =>
    calc_med_first_diffs_dim4_pixel
      ((List.range (ni * nd)).map (fun k => cube (k / nd) (k % nd) r c))

/-- Quality-flag (gdq) array: a total function from (integration, group,
row, column) to a natural-number bit field, with shapes passed separately. -/
def Gdq : Type := ℕ → ℕ → ℕ → ℕ → ℕ

/-- Ramp-data (or first-difference, or ratio) cube as a total function from
(integration, group, row, column) to a float value. -/
def DataCube : Type := ℕ → ℕ → ℕ → ℕ → F

/-- Spillover buffer (row_below_gdq / row_above_gdq): (integration, group,
column) to a flag byte. -/
def Buf3 : Type := ℕ → ℕ → ℕ → ℕ

/-- Embeds the parameter bundle TwoPointParams (twopoint_difference.py
lines 12-69).  Thresholds and energies are rationals; flag bit constants
are naturals; count minimums are integers (Python ints).  The fields
fl_good, fl_ngv and fl_ref are never read by find_crs and are omitted.
The source stores nframes as a 1-tuple (a trailing-comma slip at line 19);
NumPy broadcasts the division read_noise**2 / nframes over it, so the
numeric effect is the scalar field kept here. -/
structure TwoPointParams where
  normal_rej_thresh : ℚ
  two_diff_rej_thresh : ℚ
  three_diff_rej_thresh : ℚ
  nframes : ℚ
  flag_4_neighbors : Bool
  max_jump_to_flag_neighbors : ℚ
  min_jump_to_flag_neighbors : ℚ
  fl_sat : ℕ
  fl_jump : ℕ
  fl_dnu : ℕ
  after_jump_flag_e1 : ℚ
  after_jump_flag_n1 : ℕ
  after_jump_flag_e2 : ℚ
  after_jump_flag_n2 : ℕ
  minimum_groups : ℤ
  minimum_sigclip_groups : ℤ
  only_use_ints : Bool
  min_diffs_single_pass : ℤ
  copy_arrs : Bool

/-- Embeds np.all(np.bitwise_and(gdq[integ, grp, :, :], fl_dnu)): every
pixel of the (integ, grp) plane carries a DO_NOT_USE bit. -/
def allPixDnu (nr nc : ℕ) (gdq : Gdq) (p : TwoPointParams) (i g : ℕ) : Bool :=
  decide (∀ r < nr, ∀ c < nc, gdq i g r c &&& p.fl_dnu ≠ 0)

/-- Embeds compute_nflagged_groups (lines 444-452): the number of
(integration, group) planes whose pixels are all flagged DO_NOT_USE. -/
def compute_nflagged_groups (ni ng nr nc : ℕ) (gdq : Gdq) (p : TwoPointParams) : ℕ :=
  ((List.range ni).map
    (fun i => ((List.range ng).filter (fun g => allPixDnu nr nc gdq p i g)).length)).sum

/-- Embeds compute_totals (lines 429-435): (total_groups, total_diffs,
total_usable_diffs) as integers. -/
def compute_totals (ni ng nr nc : ℕ) (gdq : Gdq) (p : TwoPointParams) : ℤ × ℤ × ℤ :=
  let nf : ℤ := compute_nflagged_groups ni ng nr nc gdq p
  ((ni : ℤ) * ((ng : ℤ) - nf), (ni : ℤ) * ((ng : ℤ) - 1 - nf),
   (ni : ℤ) * ((ng : ℤ) - 1 - nf) - nf)

/-- Embeds enough_sigclip_groups (lines 438-441). -/
def enough_sigclip_groups (nints : ℕ) (total_groups : ℤ) (p : TwoPointParams) : Bool :=
  (p.only_use_ints && decide ((nints : ℤ) ≥ p.minimum_sigclip_groups)) ||
  (!p.only_use_ints && decide (total_groups ≥ p.minimum_sigclip_groups))

/-- Embeds too_few_groups (lines 472-483). -/
def too_few_groups (nints ngrps : ℕ) (total_groups : ℤ) (p : TwoPointParams) : Bool :=
  (decide ((ngrps : ℤ) < p.minimum_groups) && p.only_use_ints &&
     decide ((nints : ℤ) < p.minimum_sigclip_groups)) ||
  (!p.only_use_ints && decide ((nints : ℤ) * (ngrps : ℤ) < p.minimum_sigclip_groups) &&
     decide (total_groups < p.minimum_groups))

/-- Embeds nan_invalid_data (lines 454-458): three successive in-place
masked writes setting samples whose gdq matches fl_sat, fl_dnu, and
fl_dnu + fl_sat to NaN, modelled as the resulting array. -/
def nan_invalid_data (dat : DataCube) (gdq : Gdq) (p : TwoPointParams) : DataCube :=
  let d1 : DataCube := fun i g r c =>
    if gdq i g r c &&& p.fl_sat ≠ 0 then F.nan else dat i g r c
  let d2 : DataCube := fun i g r c =>
    if gdq i g r c &&& p.fl_dnu ≠ 0 then F.nan else d1 i g r c
  fun i g r c =>
    if gdq i g r c &&& (p.fl_dnu + p.fl_sat) ≠ 0 then F.nan else d2 i g r c

/-- The three mutually exclusive detection strategies of find_crs. -/
inductive DetectionPath where
  | sigmaClip : DetectionPath
  | singlePass : DetectionPath
  | iterative : DetectionPath
deriving DecidableEq

/-- Embeds the strategy selection structure of find_crs (lines 158, 180,
202): sigma clipping when enough_sigclip_groups holds, else the single
pass when total_usable_diffs >= min_diffs_single_pass, else the iterative
per-pixel path. -/
def detection_path (nints : ℕ) (total_groups total_usable_diffs : ℤ)
    (p : TwoPointParams) : DetectionPath :=
  if enough_sigclip_groups nints total_groups p then DetectionPath.sigmaClip
  else if total_usable_diffs ≥ p.min_diffs_single_pass then DetectionPath.singlePass
  else DetectionPath.iterative

/-- Outcome of the find_crs front end.  skipped carries the full return
value of the too_few_groups short-circuit (lines 130-134): the array the
caller's dataa now references, the returned (unmodified) gdq, the two
zero spillover buffers, the zero jump count, and the shape of the
zero-filled placeholder statistics array.  proceed records the data state
after preprocessing and which detection branch executes; the branch
bodies are embedded separately below (mask_gdq, the single-pass mask, the
iterative per-pixel refinement, flag_neighbors, after_jump). -/
inductive FindOutcome where
  | skipped (callerDat : DataCube) (gdqOut : Gdq) (rowBelow rowAbove : Buf3)
      (numPrimaryCrs : ℕ) (dummyShape : List ℕ)
  | proceed (datAfterPreprocess : DataCube) (path : DetectionPath)

/-- Embeds the find_crs front end (lines 112-205): possibly_copy (lines
461-469, which applies nan_invalid_data to dat — in place on the caller's
array when copy_arrs is false), the totals, the too_few_groups
short-circuit, and the selection among the three detection strategies. -/
def find_crs (dataa : DataCube) (group_dq : Gdq) (ni ng nr nc : ℕ)
    (p : TwoPointParams) : FindOutcome :=
  let dat := nan_invalid_data dataa group_dq p
  let callerDat := if p.copy_arrs then dataa else dat
  let t := compute_totals ni ng nr nc group_dq p
  if too_few_groups ni ng t.1 p then
    FindOutcome.skipped callerDat group_dq (fun _ _ _ => 0) (fun _ _ _ => 0) 0
      [ng - 1, nr, nc]
  else
    FindOutcome.proceed dat (detection_path ni t.1 t.2.2 p)

/-- Embeds the flag-application half of mask_gdq (lines 396-403): the jump
mask is clipped-and-not-already-missing, cleared where the gdq byte is
exactly fl_sat, exactly fl_dnu, or exactly fl_dnu + fl_sat, and then OR'd
as fl_jump into gdq[:, 1:, :, :].  The source reads gdq as a free name that
is defined nowhere (it is not a parameter of mask_gdq and there is no
module-level gdq), so executing this path raises NameError; per the
enclosing find_crs data flow the intended array is the quality cube,
modelled here as the explicit parameter gdq. -/
def mask_gdq_step1 (ng : ℕ) (clippedMask fdmMask : ℕ → ℕ → ℕ → ℕ → Bool)
    (gdq : Gdq) (p : TwoPointParams) : Gdq :=
  let jm : ℕ → ℕ → ℕ → ℕ → Bool := fun i d r c =>
    clippedMask i d r c && !fdmMask i d r c &&
    !(gdq i (d + 1) r c == p.fl_sat) && !(gdq i (d + 1) r c == p.fl_dnu) &&
    !(gdq i (d + 1) r c == p.fl_dnu + p.fl_sat)
  fun i g r c =>
    if 1 ≤ g ∧ g < ng ∧ jm i (g - 1) r c then gdq i g r c ||| p.fl_jump
    else gdq i g r c

/-- Embeds the plane test of mask_gdq (lines 407-408): every pixel of the
(integ, grp) plane has a jump bit or a DO_NOT_USE bit. -/
def plane_all_jump_or_dnu (nr nc : ℕ) (g1 : Gdq) (p : TwoPointParams) (i g : ℕ) : Bool :=
  decide (∀ r < nr, ∀ c < nc,
    (g1 i g r c &&& p.fl_jump) ||| (g1 i g r c &&& p.fl_dnu) ≠ 0)

/-- Embeds mask_gdq (lines 396-412), with the free gdq name modelled as a
parameter (see mask_gdq_step1): after the jump flags are applied, any
(integration, group) plane whose pixels are all jump-or-DO_NOT_USE has the
pixels whose byte equals fl_jump exactly reset to 0. -/
def mask_gdq (ni ng nr nc : ℕ) (clippedMask fdmMask : ℕ → ℕ → ℕ → ℕ → Bool)
    (gdq : Gdq) (p : TwoPointParams) : Gdq :=
  let g1 := mask_gdq_step1 ng clippedMask fdmMask gdq p
  fun i g r c =>
    if i < ni ∧ g < ng ∧ r < nr ∧ c < nc ∧ plane_all_jump_or_dnu nr nc g1 p i g ∧
       g1 i g r c = p.fl_jump
    then 0 else g1 i g r c

/-- Embeds the zero-sigma reset (lines 147-148, 188-189, 212-213):
sigma[sigma == 0] = np.nan. -/
def sigma_reset (s : F) : F := if s = F.fin 0 then F.nan else s

/-- Embeds the per-pixel sigma (lines 145, 187, 211, 275):
sqrt(|median_diffs| + read_noise**2 / nframes). -/
def pixel_sigma (med : F) (rn2 nframes : ℚ) : F :=
  fsqrt (fadd (fabs med) (F.fin (qdiv rn2 nframes)))

/-- Embeds the per-sample ratio (lines 154, 196, 219, 276):
|first_diff - median| / sigma. -/
def sample_ratio (d med sigma : F) : F := fdiv (fabs (fsub d med)) sigma

/-- Embeds the single-pass flag decision for one sample (lines 196-201):
np.ma.masked_greater marks ratio > normal_rej_thresh (false for a NaN
ratio), and the jump mask conjoins that with the sample's first difference
not being masked. -/
def single_pass_jump_mask (d med sigma : F) (maskedDiff : Bool)
    (p : TwoPointParams) : Bool :=
  flt (F.fin p.normal_rej_thresh) (sample_ratio d med sigma) && !maskedDiff

/-- Embeds the iterative path's candidate classification for one pixel
(lines 227-240): the pixel enters the per-pixel loop when its usable-diff
count and max ratio pass one of the three tier tests (NaN max ratio passes
none). -/
def iter_candidate (usableDiffs : ℤ) (maxRatio : F) (p : TwoPointParams) : Bool :=
  (decide (4 ≤ usableDiffs) && flt (F.fin p.normal_rej_thresh) maxRatio) ||
  (decide (usableDiffs = 3) && flt (F.fin p.three_diff_rej_thresh) maxRatio) ||
  (decide (usableDiffs = 2) && flt (F.fin p.two_diff_rej_thresh) maxRatio)

/-- Embeds the iterative path's initial per-pixel median (line 208): the
dim4 estimator applied to the pixel's flattened column of absolute first
differences. -/
def iter_init_median (pfdFlat : List F) : F := calc_med_first_diffs_dim4_pixel pfdFlat

/-- Embeds the iterative path's initial per-pixel sigma (lines 211-213),
including the zero reset. -/
def iter_init_sigma (pfdFlat : List F) (rn2 nframes : ℚ) : F :=
  sigma_reset (pixel_sigma (iter_init_median pfdFlat) rn2 nframes)

/-- Embeds the iterative path's initial per-pixel ratio array (lines
218-219). -/
def iter_init_ratio (pfdFlat : List F) (rn2 nframes : ℚ) : List F :=
  pfdFlat.map (fun d =>
    sample_ratio d (iter_init_median pfdFlat) (iter_init_sigma pfdFlat rn2 nframes))

/-- State of the per-pixel iterative refinement (lines 249-291): the
pixel's (nints, ndiffs) slab of absolute first differences and the CR mask,
both row-major flattened, plus the new_CR_found flag. -/
structure PixState where
  pfd : List F
  crMask : List Bool
  newCRFound : Bool
deriving DecidableEq

/-- Embeds pix_first_diffs[~pix_cr_mask] = np.nan (line 270). -/
def applyCrMask (pfd : List F) (mask : List Bool) : List F :=
  List.zipWith (fun d keep => if keep then d else F.nan) pfd mask

/-- The pixel's diffs after clipping the CRs found so far (line 270). -/
def body_pfd (s : PixState) : List F := applyCrMask s.pfd s.crMask

/-- Embeds line 273: the recomputed median, via calc_med_first_diffs on the
2-D (nints, ndiffs) slab, which dispatches to the dim2 variant. -/
def body_median (s : PixState) : F := calc_med_first_diffs_dim2 (body_pfd s)

/-- Embeds line 275: the recomputed sigma.  Unlike lines 148, 189 and 213,
no zero reset is applied here. -/
def body_sigma (rn2 nframes : ℚ) (s : PixState) : F :=
  pixel_sigma (body_median s) rn2 nframes

/-- Embeds line 276: the recomputed ratio array, dividing by body_sigma
with no zero guard. -/
def body_ratio (rn2 nframes : ℚ) (s : PixState) : List F :=
  (body_pfd s).map (fun d => sample_ratio d (body_median s) (body_sigma rn2 nframes s))

/-- Embeds the tier-appropriate rejection threshold (lines 281-285). -/
def refine_rej_thresh (p : TwoPointParams) (remaining : ℤ) : ℚ :=
  if remaining = 3 then p.three_diff_rej_thresh
  else if remaining = 2 then p.two_diff_rej_thresh
  else p.normal_rej_thresh

/-- One iteration of the while body (lines 267-291): clip the CRs found so
far, recompute median, sigma and ratio, pick the max-ratio position and
compare against the threshold for the remaining usable-diff count.  Returns
none when np.nanargmax sees an all-NaN ratio slab, where the source raises
ValueError. -/
def refine_body (p : TwoPointParams) (ndiffs : ℤ) (rn2 nframes : ℚ)
    (s : PixState) : Option PixState :=
  let pfd1 := body_pfd s
  let ratio := body_ratio rn2 nframes s
  let remaining : ℤ := ndiffs - (countNan pfd1 : ℤ)
  let rej := refine_rej_thresh p remaining
  match nanargmax ratio with
  | none => none
  | some idx =>
      if flt (F.fin rej) (ratio.getD idx F.nan) then
        some { pfd := pfd1, crMask := s.crMask.set idx false, newCRFound := true }
      else
        some { pfd := pfd1, crMask := s.crMask, newCRFound := false }

/-- The while guard (line 266): a CR was found last iteration and more than
2 usable diffs remain. -/
def refine_guard (ndiffs : ℤ) (s : PixState) : Bool :=
  s.newCRFound && decide (2 < ndiffs - (countNan s.pfd : ℤ))

/-- Result of running the refinement loop: normal exit, the ValueError
abort from np.nanargmax, or fuel exhaustion (never reached, see the
termination theorem). -/
inductive RefineResult where
  | done (s : PixState)
  | err (s : PixState)
  | outOfFuel (s : PixState)
deriving DecidableEq

/-- The while loop of lines 266-291, fuel-indexed. -/
def refine_loop (p : TwoPointParams) (ndiffs : ℤ) (rn2 nframes : ℚ) :
    ℕ → PixState → RefineResult
  | 0, s => RefineResult.outOfFuel s
  | fuel + 1, s =>
      if refine_guard ndiffs s then
        match refine_body p ndiffs rn2 nframes s with
        | none => RefineResult.err s
        | some s1 => refine_loop p ndiffs rn2 nframes fuel s1
      else RefineResult.done s

/-- Embeds the pixel-loop initialization (lines 253-259): an all-keep CR
mask whose max-ratio entry is flagged as the first CR; none when pix_ratio
is all NaN (where np.nanargmax raises; unreachable for candidate pixels). -/
def refine_init (pfd ratio : List F) : Option PixState :=
  match nanargmax ratio with
  | none => none
  | some idx =>
      some { pfd := pfd, crMask := (List.replicate pfd.length true).set idx false,
             newCRFound := true }

/-- Number of kept (not CR-flagged) entries of a CR mask. -/
def trueCount (mask : List Bool) : ℕ := mask.count true

/-- Embeds np.where(np.bitwise_and(gdq, fl_jump)) (lines 299, 370): the
C-order list of jump-flagged sample coordinates. -/
def jump_locations (ni ng nr nc : ℕ) (gdq : Gdq) (flJump : ℕ) :
    List (ℕ × ℕ × ℕ × ℕ) :=
  (List.range ni).flatMap (fun i =>
    (List.range ng).flatMap (fun g =>
      (List.range nr).flatMap (fun r =>
        (List.range nc).filterMap (fun c =>
          if gdq i g r c &&& flJump ≠ 0 then some (i, g, r, c) else none))))

/-- Pointwise update of a 4-D flag array. -/
def upd4 (a : Gdq) (i g r c : ℕ) (v : ℕ) : Gdq :=
  fun i2 g2 r2 c2 => if i2 = i ∧ g2 = g ∧ r2 = r ∧ c2 = c then v else a i2 g2 r2 c2

/-- Pointwise update of a spillover buffer. -/
def upd3 (b : Buf3) (i g c : ℕ) (v : ℕ) : Buf3 :=
  fun i2 g2 c2 => if i2 = i ∧ g2 = g ∧ c2 = c then v else b i2 g2 c2

/-- Embeds the neighbor write guard (lines 325-327 etc.): the target sample
carries neither the SATURATION nor the DONOTUSE flag. -/
def ok_to_write (gdq : Gdq) (p : TwoPointParams) (i g r c : ℕ) : Bool :=
  (gdq i g r c &&& p.fl_sat == 0) && (gdq i g r c &&& p.fl_dnu == 0)

/-- A guarded jump write (lines 324-330 and the like): OR fl_jump into the
sample unless it already carries SAT or DNU, in which case the array is
left untouched. -/
def write_jump (gd : Gdq) (p : TwoPointParams) (i g r c : ℕ) : Gdq :=
  if ok_to_write gd p i g r c then upd4 gd i g r c (gd i g r c ||| p.fl_jump)
  else gd

/-- Embeds the energy-window test of lines 303-308 for a jump location:
the ratio of the group before the jump (Python index group-1 on the axis
of size ndAxis = ngroups-1, wrapping at group 0) lies strictly between the
min and max neighbor-flagging thresholds; false when that ratio is NaN. -/
def neighbor_window (ratioAll : DataCube) (ndAxis : ℕ) (p : TwoPointParams)
    (loc : ℕ × ℕ × ℕ × ℕ) : Bool :=
  let gi := if loc.2.1 = 0 then ndAxis - 1 else loc.2.1 - 1
  flt (ratioAll loc.1 gi loc.2.2.1 loc.2.2.2) (F.fin p.max_jump_to_flag_neighbors) &&
  flt (F.fin p.min_jump_to_flag_neighbors) (ratioAll loc.1 gi loc.2.2.1 loc.2.2.2)

/-- The sample at (i, g, r, c) is one of the four spatial neighbors
(row-1, row+1, col-1, col+1) of the jump at loc, in the same integration
and group. -/
def is_spatial_neighbor (loc : ℕ × ℕ × ℕ × ℕ) (i g r c : ℕ) : Prop :=
  loc.1 = i ∧ loc.2.1 = g ∧
  ((loc.2.2.1 = r + 1 ∧ loc.2.2.2 = c) ∨ (loc.2.2.1 + 1 = r ∧ loc.2.2.2 = c) ∨
   (loc.2.2.1 = r ∧ loc.2.2.2 = c + 1) ∨ (loc.2.2.1 = r ∧ loc.2.2.2 + 1 = c))

/-- State threaded through neighbor propagation: the quality cube and the
two spillover buffers. -/
structure NeighborState where
  gdq : Gdq
  rowBelow : Buf3
  rowAbove : Buf3

/-- The four guarded gdq writes of one neighbor-propagation iteration, in
source order (row-1 when not at row 0, row+1 when not at the last row,
col-1 when not at column 0, col+1 when not at the last column), each
skipped when the target is SAT/DNU-flagged. -/
def neighbor_step_writes (nrows ncols : ℕ) (p : TwoPointParams)
    (loc : ℕ × ℕ × ℕ × ℕ) (gd : Gdq) : Gdq :=
  let i := loc.1
  let g := loc.2.1
  let r := loc.2.2.1
  let c := loc.2.2.2
  let g1 := if r ≠ 0 then write_jump gd p i g (r - 1) c else gd
  let g2 := if r ≠ nrows - 1 then write_jump g1 p i g (r + 1) c else g1
  let g3 := if c ≠ 0 then write_jump g2 p i g r (c - 1) else g2
  if c ≠ ncols - 1 then write_jump g3 p i g r (c + 1) else g3

/-- Embeds the body of the neighbor-propagation loop for one jump sample
(lines 302-362).  The preceding-group ratio is ratio_all[integ, group-1],
where the Python index -1 at group 0 wraps to the last diff (axis size
ndAxis = ngroups - 1).  When the ratio lies strictly between the min and
max thresholds, the four spatial neighbors are OR'd with fl_jump unless
already SAT/DNU-flagged; at row 0 (resp. the last row) the row-1 (resp.
row+1) flag goes to the row-below (resp. row-above) buffer instead,
unconditionally.  The source interleaves the buffer writes between the gdq
writes; buffer and gdq writes touch disjoint state, so they are grouped
here with the gdq write order preserved exactly. -/
def neighbor_step (ratioAll : DataCube) (ndAxis nrows ncols : ℕ)
    (p : TwoPointParams) (st : NeighborState) (loc : ℕ × ℕ × ℕ × ℕ) :
    NeighborState :=
  if neighbor_window ratioAll ndAxis p loc then
    { gdq := neighbor_step_writes nrows ncols p loc st.gdq,
      rowBelow :=
        if loc.2.2.1 = 0 then upd3 st.rowBelow loc.1 loc.2.1 loc.2.2.2 p.fl_jump
        else st.rowBelow,
      rowAbove :=
        if loc.2.2.1 = nrows - 1 then upd3 st.rowAbove loc.1 loc.2.1 loc.2.2.2 p.fl_jump
        else st.rowAbove }
  else st

/-- Embeds neighbor propagation (lines 299-362): when flag_4_neighbors is
set, fold neighbor_step over the jump locations enumerated once from the
post-detection gdq. -/
def flag_neighbors (ni ng nrows ncols : ℕ) (ratioAll : DataCube) (gdq : Gdq)
    (rowBelow rowAbove : Buf3) (p : TwoPointParams) : NeighborState :=
  if p.flag_4_neighbors then
    (jump_locations ni ng nrows ncols gdq p.fl_jump).foldl
      (neighbor_step ratioAll (ng - 1) nrows ncols p)
      { gdq := gdq, rowBelow := rowBelow, rowAbove := rowAbove }
  else { gdq := gdq, rowBelow := rowBelow, rowAbove := rowAbove }

/-- Embeds the after-jump inner loop for one jump sample in one tier
(lines 371-382): when the retained e_jump value of the preceding group
(Python index group-1, wrapping at group 0 on the axis of size ngroups-1)
is >= the tier energy threshold, OR fl_jump into groups
group..min(group+cgroup+1, ngroups)-1 of the same pixel, skipping samples
already SAT/DNU-flagged. -/
def tier_step (ng : ℕ) (eJump : DataCube) (cthres : ℚ) (cgroup : ℕ)
    (p : TwoPointParams) (gd : Gdq) (loc : ℕ × ℕ × ℕ × ℕ) : Gdq :=
  let i := loc.1
  let g := loc.2.1
  let r := loc.2.2.1
  let c := loc.2.2.2
  let gi := if g = 0 then (ng - 1) - 1 else g - 1
  if fle (F.fin cthres) (eJump i gi r c) then
    (List.range' g (min (g + cgroup + 1) ng - g)).foldl
      (fun gd2 kk => write_jump gd2 p i kk r c) gd
  else gd

/-- Embeds one (cthres, cgroup) tier of the after-jump flagger (lines
368-382): skipped when cgroup = 0, otherwise tier_step folded over the
jump locations re-enumerated from the current gdq. -/
def after_jump_tier (ni ng nr nc : ℕ) (eJump : DataCube) (p : TwoPointParams)
    (gd : Gdq) (tier : ℚ × ℕ) : Gdq :=
  if 0 < tier.2 then
    (jump_locations ni ng nr nc gd p.fl_jump).foldl
      (tier_step ng eJump tier.1 tier.2 p) gd
  else gd

/-- Embeds the after-jump flagger (lines 364-382): the two configured
tiers applied in order. -/
def after_jump (ni ng nr nc : ℕ) (eJump : DataCube) (p : TwoPointParams)
    (gd : Gdq) : Gdq :=
  [(p.after_jump_flag_e1, p.after_jump_flag_n1),
   (p.after_jump_flag_e2, p.after_jump_flag_n2)].foldl
    (after_jump_tier ni ng nr nc eJump p) gd

/-- Invariant of the neighbor-propagation fold relative to the initial
quality cube gdq0: every sample is either untouched, or has exactly the
jump flag OR'd in, was SAT/DNU-free initially, and is a spatial neighbor
of some enumerated jump whose preceding-group ratio lies in the window. -/
def neighbor_inv (gdq0 : Gdq) (ratioAll : DataCube) (ndAxis : ℕ)
    (p : TwoPointParams) (l : List (ℕ × ℕ × ℕ × ℕ)) (gd : Gdq) : Prop :=
  ∀ i g r c,
    gd i g r c = gdq0 i g r c ∨
    (gd i g r c = (gdq0 i g r c ||| p.fl_jump) ∧
     gdq0 i g r c &&& p.fl_sat = 0 ∧ gdq0 i g r c &&& p.fl_dnu = 0 ∧
     ∃ src ∈ l, is_spatial_neighbor src i g r c ∧
       neighbor_window ratioAll ndAxis p src = true)

/-- Invariant of the after-jump folds relative to the tier's initial
quality cube gd0: every sample is either untouched or has exactly the jump
flag OR'd in and was SAT/DNU-free initially. -/
def jump_or_inv (gd0 : Gdq) (p : TwoPointParams) (gd : Gdq) : Prop :=
  ∀ i g r c,
    gd i g r c = gd0 i g r c ∨
    (gd i g r c = (gd0 i g r c ||| p.fl_jump) ∧
     gd0 i g r c &&& p.fl_sat = 0 ∧ gd0 i g r c &&& p.fl_dnu = 0)

/-- Fuel-exhaustion test on a refinement result. -/
def RefineResult.isOutOfFuel : RefineResult → Bool
  | RefineResult.outOfFuel _ => true
  | _ => false

/-- Concrete parameter bundle used by the counterexample runs: rejection
thresholds 4 / 5 / 6 for the 4+ / 3 / 2 usable-diff tiers, nframes 1, and
single-bit flags. -/
def exampleParams : TwoPointParams :=
  { normal_rej_thresh := 4, two_diff_rej_thresh := 6, three_diff_rej_thresh := 5,
    nframes := 1, flag_4_neighbors := true, max_jump_to_flag_neighbors := 1000,
    min_jump_to_flag_neighbors := 10, fl_sat := 2, fl_jump := 4, fl_dnu := 1,
    after_jump_flag_e1 := 0, after_jump_flag_n1 := 0, after_jump_flag_e2 := 0,
    after_jump_flag_n2 := 0, minimum_groups := 5, minimum_sigclip_groups := 100,
    only_use_ints := false, min_diffs_single_pass := 10, copy_arrs := false }

/-- One pixel's absolute first differences (1 integration, 5 diffs) for
the counterexample runs, with read noise 0. -/
def examplePfd : List F := [F.fin 2, F.fin 0, F.fin 0, F.fin 100, F.fin 100]

/-! Helper lemmas on bit fields and lists, shared by the claim theorems. -/

theorem qadd_eq (a b : ℚ) : qadd a b = a + b := (Rat.add_def' a b).symm

theorem qdiv_eq (a b : ℚ) : qdiv a b = a / b := by
  by_cases hb : b = 0
  · subst hb
    unfold qdiv
    norm_num [Rat.mkRat_eq_div]
  · have hbnum : b.num ≠ 0 := Rat.num_ne_zero.mpr hb
    have had : (a.den : ℚ) ≠ 0 := by
      exact_mod_cast a.den_nz
    have hbd : (b.den : ℚ) ≠ 0 := by
      exact_mod_cast b.den_nz
    have hbnq : (b.num : ℚ) ≠ 0 := Int.cast_ne_zero.mpr hbnum
    have key : ((a.num : ℚ) * b.den) / ((a.den : ℚ) * b.num) = a / b := by
      conv_rhs => rw [← Rat.num_div_den a, ← Rat.num_div_den b]
      field_simp
    unfold qdiv
    rcases le_or_lt 0 b.num with h | h
    · have h1 : ((b.num.toNat : ℕ) : ℚ) = (b.num : ℚ) := by
        exact_mod_cast Int.toNat_of_nonneg h
      rw [if_pos h, Rat.mkRat_eq_div, ← key]
      push_cast
      rw [h1]
    · have h1 : (((-b.num).toNat : ℕ) : ℚ) = -(b.num : ℚ) := by
        exact_mod_cast Int.toNat_of_nonneg (by omega : (0:ℤ) ≤ -b.num)
      rw [if_neg (not_le.mpr h), Rat.mkRat_eq_div, ← key]
      push_cast
      rw [h1]
      field_simp

theorem land_eq_zero_iff {a b : ℕ} :
    a &&& b = 0 ↔ ∀ k, a.testBit k = false ∨ b.testBit k = false := by
  constructor
  · intro h k
    have h2 := congrArg (fun x => Nat.testBit x k) h
    simp only [Nat.testBit_land, Nat.zero_testBit] at h2
    rcases Bool.and_eq_false_iff.mp h2 with h3 | h3
    · exact Or.inl h3
    · exact Or.inr h3
  · intro h
    apply Nat.eq_of_testBit_eq
    intro k
    simp only [Nat.testBit_land, Nat.zero_testBit]
    rcases h k with h1 | h1 <;> simp [h1]

theorem land_ne_zero_iff {a b : ℕ} :
    a &&& b ≠ 0 ↔ ∃ k, a.testBit k = true ∧ b.testBit k = true := by
  rw [Ne, land_eq_zero_iff]
  push_neg
  constructor
  · intro ⟨k, hk⟩
    exact ⟨k, eq_true_of_ne_false hk.1, eq_true_of_ne_false hk.2⟩
  · intro ⟨k, hk⟩
    exact ⟨k, by simp [hk.1], by simp [hk.2]⟩

theorem land_lor_left {a b c : ℕ} (h : b &&& c = 0) :
    (a ||| b) &&& c = a &&& c := by
  apply Nat.eq_of_testBit_eq
  intro k
  simp only [Nat.testBit_land, Nat.testBit_lor]
  rcases land_eq_zero_iff.mp h k with h1 | h1 <;> simp [h1]

theorem land_lor_mono {a c : ℕ} (b : ℕ) (h : a &&& c ≠ 0) :
    (a ||| b) &&& c ≠ 0 := by
  obtain ⟨k, hk1, hk2⟩ := land_ne_zero_iff.mp h
  exact land_ne_zero_iff.mpr ⟨k, by simp [Nat.testBit_lor, hk1], hk2⟩

theorem land_lor_self_ne_zero (a : ℕ) {c : ℕ} (h : c ≠ 0) :
    (a ||| c) &&& c ≠ 0 := by
  obtain ⟨k, hk⟩ : ∃ k, c.testBit k = true := by
    by_contra hc
    push_neg at hc
    apply h
    apply Nat.eq_of_testBit_eq
    intro k
    simp only [Nat.zero_testBit]
    exact Bool.eq_false_iff.mpr (hc k)
  exact land_ne_zero_iff.mpr ⟨k, by simp [Nat.testBit_lor, hk], hk⟩

theorem lor_lor_self (a c : ℕ) : (a ||| c) ||| c = a ||| c := by
  rw [Nat.lor_assoc, Nat.or_self]

theorem fdiv_nan_right (x : F) : fdiv x F.nan = F.nan := by
  cases x <;> rfl

theorem flt_nan_right (x : F) : flt x F.nan = false := by
  cases x <;> rfl

theorem sample_ratio_nan_diff (med sigma : F) :
    sample_ratio F.nan med sigma = F.nan := by
  cases med <;> cases sigma <;> rfl

theorem sample_ratio_sigma_nan (d med : F) :
    sample_ratio d med F.nan = F.nan := fdiv_nan_right _

theorem nanmaxList_all_nan {xs : List F} (h : ∀ x ∈ xs, fisnan x = true) :
    nanmaxList xs = F.nan := by
  have hf : xs.filter (fun x => !fisnan x) = [] := by
    rw [List.filter_eq_nil_iff]
    intro a ha
    simp [h a ha]
  unfold nanmaxList
  rw [hf]

theorem getD_map_F (f : F → F) (xs : List F) (i : ℕ) (h : i < xs.length) :
    (xs.map f).getD i F.nan = f (xs.getD i F.nan) := by
  induction xs generalizing i with
  | nil => simp at h
  | cons x rest ih =>
    cases i with
    | zero => rfl
    | succ n =>
      simp only [List.map_cons, List.getD_cons_succ]
      exact ih n (by simpa using Nat.lt_of_succ_lt_succ h)

theorem applyCrMask_getD {pfd : List F} {mask : List Bool} {i : ℕ}
    (h1 : i < pfd.length) (h2 : i < mask.length) :
    (applyCrMask pfd mask).getD i F.nan =
      (if mask.getD i false then pfd.getD i F.nan else F.nan) := by
  induction pfd generalizing mask i with
  | nil => simp at h1
  | cons x rest ih =>
    cases mask with
    | nil => simp at h2
    | cons b bs =>
      cases i with
      | zero => rfl
      | succ n =>
        simp only [applyCrMask, List.zipWith_cons_cons, List.getD_cons_succ]
        exact ih (Nat.lt_of_succ_lt_succ h1) (Nat.lt_of_succ_lt_succ h2)

theorem count_true_set_false {mask : List Bool} {i : ℕ}
    (h : i < mask.length) (ht : mask.getD i false = true) :
    (mask.set i false).count true < mask.count true := by
  induction mask generalizing i with
  | nil => simp at h
  | cons b bs ih =>
    cases i with
    | zero =>
      have hb : b = true := ht
      subst hb
      simp [List.count_cons]
    | succ n =>
      have := ih (Nat.lt_of_succ_lt_succ h) ht
      simp only [List.set_cons_succ, List.count_cons]
      omega

theorem nanargmaxAux_lt {xs : List F} {k : ℕ} {acc : Option (ℕ × F)} {j : ℕ} {v : F}
    (hacc : ∀ j2 v2, acc = some (j2, v2) → j2 < k)
    (h : nanargmaxAux xs k acc = some (j, v)) : j < k + xs.length := by
  induction xs generalizing k acc with
  | nil =>
    simp only [nanargmaxAux] at h
    have := hacc j v h
    omega
  | cons x rest ih =>
    simp only [nanargmaxAux] at h
    have hnext : ∀ j2 v2,
        (if fisnan x then acc
         else match acc with
           | none => some (k, x)
           | some (p, m) => if flt m x then some (k, x) else some (p, m)) = some (j2, v2) →
        j2 < k + 1 := by
      intro j2 v2 hj
      by_cases hx : fisnan x
      · rw [if_pos hx] at hj
        exact Nat.lt_succ_of_lt (hacc j2 v2 hj)
      · rw [if_neg hx] at hj
        cases acc with
        | none =>
          simp at hj
          omega
        | some pm =>
          obtain ⟨p, m⟩ := pm
          have hj2 : (if flt m x then some (k, x) else some (p, m)) = some (j2, v2) := hj
          by_cases hf : flt m x
          · rw [if_pos hf] at hj2
            simp at hj2
            omega
          · rw [if_neg hf] at hj2
            simp at hj2
            have := hacc p m rfl
            omega
    have := ih hnext h
    simp only [List.length_cons]
    omega

theorem nanargmax_lt {xs : List F} {i : ℕ} (h : nanargmax xs = some i) :
    i < xs.length := by
  unfold nanargmax at h
  match h2 : nanargmaxAux xs 0 none with
  | none => rw [h2] at h; simp at h
  | some (j, v) =>
    rw [h2] at h
    simp at h
    subst h
    have := nanargmaxAux_lt (by intro j2 v2 hj; simp at hj) h2
    omega

/-! Claim theorems. -/

/-- C1: the claim asserts that the 4-D vectorized Robust Median Estimator
produces at every pixel exactly the result of the 1-D form on that pixel's
vector.  It does not: at the vector [-10, 1, 2, 3] (4 usable diffs) the
1-D form clips the largest-magnitude value -10 (np.nanargmax of the
absolute values, line 523) and returns median {1, 2, 3} = 2, while the 4-D
form clips the largest signed value 3 (np.nanargmax with no absolute
value, line 564) and returns median {-10, 1, 2} = 1, contradicting the
shared docstring ("the group with largest absolute first difference will
be clipped").  This theorem evaluates both embedded forms at that failing
input. -/
theorem c1_dim4_dim1_divergence_eval :
    calc_med_first_diffs_dim1 [F.fin (-10), F.fin 1, F.fin 2, F.fin 3] = F.fin 2 ∧
    calc_med_first_diffs_dim4 1 4 1 1
      (fun _ d _ _ => [F.fin (-10), F.fin 1, F.fin 2, F.fin 3].getD d F.nan) 0 0 =
      F.fin 1 ∧
    F.fin 2 ≠ F.fin 1 :=
  ⟨by decide, by decide, by decide⟩

/-- C2: the claim asserts that at exactly 2 usable diffs all three shape
specializations return the smaller-magnitude value.  The 2-D form does
not: at [-5, 1] it returns first_diffs[np.nanargmin(first_diffs)] (line
547, the signed minimum) = -5, the larger-magnitude value, while the 1-D
and 4-D forms return 1, contradicting the docstring ("the group with the
smallest absolute difference will be returned").  This theorem evaluates
the three embedded forms at that failing input. -/
theorem c2_dim2_two_diff_divergence_eval :
    calc_med_first_diffs_dim2 [F.fin (-5), F.fin 1] = F.fin (-5) ∧
    calc_med_first_diffs_dim1 [F.fin (-5), F.fin 1] = F.fin 1 ∧
    calc_med_first_diffs_dim4 1 2 1 1
      (fun _ d _ _ => [F.fin (-5), F.fin 1].getD d F.nan) 0 0 = F.fin 1 :=
  ⟨by decide, by decide, by decide⟩

/-- C3: for every call that passes the eligibility gate, find_crs proceeds
with the path chosen by detection_path, and exactly one of the three entry
conditions holds: sigma-clip iff enough_sigclip_groups ((only-use-ints
mode and nints >= minimum_sigclip_groups) or (not that mode and
total_groups >= minimum_sigclip_groups)); otherwise single-pass iff
total_usable_diffs >= min_diffs_single_pass; otherwise the iterative
path.  The choice is a function of the totals and the parameter bundle. -/
theorem c3_detection_path_trichotomy (dataa : DataCube) (group_dq : Gdq)
    (ni ng nr nc : ℕ) (p : TwoPointParams)
    (hgate : too_few_groups ni ng (compute_totals ni ng nr nc group_dq p).1 p = false) :
    find_crs dataa group_dq ni ng nr nc p =
      FindOutcome.proceed (nan_invalid_data dataa group_dq p)
        (detection_path ni (compute_totals ni ng nr nc group_dq p).1
          (compute_totals ni ng nr nc group_dq p).2.2 p) ∧
    ∀ tg tud : ℤ,
      (enough_sigclip_groups ni tg p = true ∨
        (enough_sigclip_groups ni tg p = false ∧ p.min_diffs_single_pass ≤ tud) ∨
        (enough_sigclip_groups ni tg p = false ∧ tud < p.min_diffs_single_pass)) ∧
      ¬(enough_sigclip_groups ni tg p = true ∧
        enough_sigclip_groups ni tg p = false ∧ p.min_diffs_single_pass ≤ tud) ∧
      ¬(enough_sigclip_groups ni tg p = true ∧
        enough_sigclip_groups ni tg p = false ∧ tud < p.min_diffs_single_pass) ∧
      ¬((enough_sigclip_groups ni tg p = false ∧ p.min_diffs_single_pass ≤ tud) ∧
        enough_sigclip_groups ni tg p = false ∧ tud < p.min_diffs_single_pass) ∧
      (detection_path ni tg tud p = DetectionPath.sigmaClip ↔
        enough_sigclip_groups ni tg p = true) ∧
      (detection_path ni tg tud p = DetectionPath.singlePass ↔
        (enough_sigclip_groups ni tg p = false ∧ p.min_diffs_single_pass ≤ tud)) ∧
      (detection_path ni tg tud p = DetectionPath.iterative ↔
        (enough_sigclip_groups ni tg p = false ∧ tud < p.min_diffs_single_pass)) := by
  constructor
  · simp only [find_crs, hgate]
    simp
  · intro tg tud
    by_cases he : enough_sigclip_groups ni tg p = true
    · simp [detection_path, he]
    · have he2 : enough_sigclip_groups ni tg p = false := by
        simpa using he
      by_cases hd : p.min_diffs_single_pass ≤ tud
      · simp [detection_path, he2, hd, ge_iff_le]
      · simp [detection_path, he2, hd, ge_iff_le]
        omega

/-- C3 witness: a concrete call passing the gate (1 integration, 20
groups, all-good quality flags) proceeds with the selected path. -/
theorem c3_witness :
    find_crs (fun _ _ _ _ => F.fin 0) (fun _ _ _ _ => 0) 1 20 1 1 exampleParams =
      FindOutcome.proceed
        (nan_invalid_data (fun _ _ _ _ => F.fin 0) (fun _ _ _ _ => 0) exampleParams)
        (detection_path 1
          (compute_totals 1 20 1 1 (fun _ _ _ _ => 0) exampleParams).1
          (compute_totals 1 20 1 1 (fun _ _ _ _ => 0) exampleParams).2.2
          exampleParams) :=
  (c3_detection_path_trichotomy (fun _ _ _ _ => F.fin 0) (fun _ _ _ _ => 0)
    1 20 1 1 exampleParams (by decide)).1

/-- C5: whenever too_few_groups holds, find_crs short-circuits and returns
the quality array unmodified, two zero-filled spillover buffers, a jump
count of zero, and the zero-filled placeholder statistics array shaped to
one fewer group than the input; the embedded front end is total, so no
error is raised. -/
theorem c5_skip_short_circuit (dataa : DataCube) (group_dq : Gdq)
    (ni ng nr nc : ℕ) (p : TwoPointParams)
    (hskip : too_few_groups ni ng (compute_totals ni ng nr nc group_dq p).1 p = true) :
    find_crs dataa group_dq ni ng nr nc p =
      FindOutcome.skipped
        (if p.copy_arrs then dataa else nan_invalid_data dataa group_dq p)
        group_dq (fun _ _ _ => 0) (fun _ _ _ => 0) 0 [ng - 1, nr, nc] := by
  simp only [find_crs, hskip]
  simp

/-- C5 witness: the spec scenario (1 integration, 3 groups,
minimum_groups 5, minimum_sigclip_groups 100, only_use_ints false) skips
with exactly the claimed return value. -/
theorem c5_witness :
    too_few_groups 1 3 (compute_totals 1 3 1 1 (fun _ _ _ _ => 0) exampleParams).1
      exampleParams = true ∧
    find_crs (fun _ _ _ _ => F.fin 0) (fun _ _ _ _ => 0) 1 3 1 1 exampleParams =
      FindOutcome.skipped
        (if exampleParams.copy_arrs then (fun _ _ _ _ => F.fin 0)
         else nan_invalid_data (fun _ _ _ _ => F.fin 0) (fun _ _ _ _ => 0) exampleParams)
        (fun _ _ _ _ => 0) (fun _ _ _ => 0) (fun _ _ _ => 0) 0 [3 - 1, 1, 1] :=
  ⟨by decide,
   c5_skip_short_circuit (fun _ _ _ _ => F.fin 0) (fun _ _ _ _ => 0) 1 3 1 1
     exampleParams (by decide)⟩

/-- C10: with copy_arrs false, the array the caller's dataa references
after the call is nan_invalid_data of the inputs — the mutation applied by
possibly_copy before the eligibility gate — in which every sample flagged
saturated or do-not-use is overwritten with NaN; on the skip path the
returned quality array is the unchanged input group_dq. -/
theorem c10_inplace_nan_mutation (dataa : DataCube) (group_dq : Gdq)
    (ni ng nr nc : ℕ) (p : TwoPointParams) (hcopy : p.copy_arrs = false)
    (hskip : too_few_groups ni ng (compute_totals ni ng nr nc group_dq p).1 p = true) :
    find_crs dataa group_dq ni ng nr nc p =
      FindOutcome.skipped (nan_invalid_data dataa group_dq p) group_dq
        (fun _ _ _ => 0) (fun _ _ _ => 0) 0 [ng - 1, nr, nc] ∧
    ∀ i g r c,
      (group_dq i g r c &&& p.fl_sat ≠ 0 ∨ group_dq i g r c &&& p.fl_dnu ≠ 0) →
      nan_invalid_data dataa group_dq p i g r c = F.nan := by
  constructor
  · simp only [find_crs, hskip, hcopy]
    simp
  · intro i g r c h
    simp only [nan_invalid_data]
    by_cases h3 : group_dq i g r c &&& (p.fl_dnu + p.fl_sat) ≠ 0
    · rw [if_pos h3]
    · rw [if_neg h3]
      by_cases h2 : group_dq i g r c &&& p.fl_dnu ≠ 0
      · rw [if_pos h2]
      · rw [if_neg h2]
        rcases h with h1 | h1
        · rw [if_pos h1]
        · exact absurd h1 h2

/-- C10 witness: a skipping call (1 integration, 3 groups) on a quality
array whose group-0 plane carries the SAT bit mutates the caller's ramp
array in place. -/
theorem c10_witness :
    find_crs (fun _ _ _ _ => F.fin 7)
        (fun _ g _ _ => if g = 0 then 2 else 0) 1 3 1 1 exampleParams =
      FindOutcome.skipped
        (nan_invalid_data (fun _ _ _ _ => F.fin 7)
          (fun _ g _ _ => if g = 0 then 2 else 0) exampleParams)
        (fun _ g _ _ => if g = 0 then 2 else 0)
        (fun _ _ _ => 0) (fun _ _ _ => 0) 0 [3 - 1, 1, 1] ∧
    ∀ i g r c,
      ((if g = 0 then 2 else 0) &&& exampleParams.fl_sat ≠ 0 ∨
       (if g = 0 then 2 else 0) &&& exampleParams.fl_dnu ≠ 0) →
      nan_invalid_data (fun _ _ _ _ => F.fin 7)
        (fun _ g _ _ => if g = 0 then 2 else 0) exampleParams i g r c = F.nan :=
  c10_inplace_nan_mutation (fun _ _ _ _ => F.fin 7)
    (fun _ g _ _ => if g = 0 then 2 else 0) 1 3 1 1 exampleParams
    (by decide) (by decide)

/-- C4: property of the modelled mask_gdq (the source itself raises
NameError in this path, reading the undefined free name gdq; the model
passes the enclosing find_crs quality cube explicitly).  (a) If, after the
jump flags are applied (mask_gdq_step1), every pixel of an in-bounds
(integration, group) plane carries a jump or DO_NOT_USE bit, then every
pixel of that plane whose byte equals fl_jump exactly is cleared to 0.
(b) A sample acquires a jump flag only when its preceding first difference
was clipped and was not already missing. -/
theorem c4_mask_gdq_plane_clear (ni ng nr nc : ℕ)
    (clippedMask fdmMask : ℕ → ℕ → ℕ → ℕ → Bool) (gdq : Gdq) (p : TwoPointParams) :
    (∀ i g, i < ni → g < ng →
      (∀ r < nr, ∀ c < nc,
        (mask_gdq_step1 ng clippedMask fdmMask gdq p i g r c &&& p.fl_jump) |||
          (mask_gdq_step1 ng clippedMask fdmMask gdq p i g r c &&& p.fl_dnu) ≠ 0) →
      ∀ r, r < nr → ∀ c, c < nc →
        mask_gdq_step1 ng clippedMask fdmMask gdq p i g r c = p.fl_jump →
        mask_gdq ni ng nr nc clippedMask fdmMask gdq p i g r c = 0) ∧
    (∀ i g r c,
      mask_gdq ni ng nr nc clippedMask fdmMask gdq p i g r c &&& p.fl_jump ≠ 0 →
      gdq i g r c &&& p.fl_jump = 0 →
      1 ≤ g ∧ clippedMask i (g - 1) r c = true ∧ fdmMask i (g - 1) r c = false) := by
  constructor
  · intro i g hi hg hall r hr c hc hv
    have hplane : plane_all_jump_or_dnu nr nc
        (mask_gdq_step1 ng clippedMask fdmMask gdq p) p i g = true := by
      simp only [plane_all_jump_or_dnu, decide_eq_true_eq]
      exact hall
    simp only [mask_gdq]
    rw [if_pos ⟨hi, hg, hr, hc, hplane, hv⟩]
  · intro i g r c hjump hold
    simp only [mask_gdq] at hjump
    split at hjump
    · simp at hjump
    · simp only [mask_gdq_step1] at hjump
      split at hjump
      · rename_i hm
        obtain ⟨hg1, _, hjm⟩ := hm
        simp only [Bool.and_eq_true, Bool.not_eq_true'] at hjm
        exact ⟨hg1, hjm.1.1.1.1, hjm.1.1.1.2⟩
      · exact absurd hold hjump

/-- C4 witness: on a 1x2x1x1 cube with everything clipped and nothing
missing, the single pixel of the group-1 plane ends all-jump and is
cleared; and on a 1x2x1x2 cube with only column 0 clipped, the surviving
jump flag at (0,1,0,0) traces back to a clipped, non-missing diff. -/
theorem c4_witness :
    mask_gdq 1 2 1 1 (fun _ _ _ _ => true) (fun _ _ _ _ => false)
      (fun _ _ _ _ => 0) exampleParams 0 1 0 0 = 0 ∧
    (1 ≤ 1 ∧ (fun _ _ _ (c : ℕ) => c == 0) 0 (1 - 1) 0 0 = true ∧
      (fun _ _ _ (_ : ℕ) => false) 0 (1 - 1) 0 0 = false) :=
  ⟨(c4_mask_gdq_plane_clear 1 2 1 1 (fun _ _ _ _ => true) (fun _ _ _ _ => false)
      (fun _ _ _ _ => 0) exampleParams).1 0 1 (by decide) (by decide) (by decide)
      0 (by decide) 0 (by decide) (by decide),
   (c4_mask_gdq_plane_clear 1 2 1 2 (fun _ _ _ c => c == 0) (fun _ _ _ _ => false)
      (fun _ _ _ _ => 0) exampleParams).2 0 1 0 0 (by decide) (by decide)⟩

/-- C6 counterexample: the claim asserts that whenever the computed
per-pixel sigma is exactly zero it is replaced by the missing sentinel
before any ratio is formed, so no division by zero occurs.  The iterative
inner loop (line 275) has no such reset: for the genuine candidate pixel
with absolute first diffs examplePfd, read noise 0 and nframes 1, after
the first accepted refinement iteration the recomputed sigma is exactly 0,
and the ratio array is then formed by dividing by it, producing the
infinite ratio |2 - 0| / 0. -/
theorem c6_counterexample :
    iter_candidate 5 (nanmaxList (iter_init_ratio examplePfd 0 1)) exampleParams = true ∧
    refine_init examplePfd (iter_init_ratio examplePfd 0 1) =
      some { pfd := examplePfd, crMask := [true, true, true, false, true],
             newCRFound := true } ∧
    refine_body exampleParams 5 0 1
        { pfd := examplePfd, crMask := [true, true, true, false, true],
          newCRFound := true } =
      some { pfd := [F.fin 2, F.fin 0, F.fin 0, F.nan, F.fin 100],
             crMask := [true, true, true, false, false], newCRFound := true } ∧
    refine_guard 5 { pfd := [F.fin 2, F.fin 0, F.fin 0, F.nan, F.fin 100],
                     crMask := [true, true, true, false, false],
                     newCRFound := true } = true ∧
    body_sigma 0 1 { pfd := [F.fin 2, F.fin 0, F.fin 0, F.nan, F.fin 100],
                     crMask := [true, true, true, false, false],
                     newCRFound := true } = F.fin 0 ∧
    (body_ratio 0 1 { pfd := [F.fin 2, F.fin 0, F.fin 0, F.nan, F.fin 100],
                      crMask := [true, true, true, false, false],
                      newCRFound := true }).getD 0 F.nan = F.inf :=
  ⟨by decide, by decide, by decide, by decide, by decide, by decide⟩

/-- C6 (amended): at the three top-level sigma computations the zero reset
makes a zero divisor impossible (sigma_reset never returns fin 0); a
sample whose sigma is the NaN sentinel is never flagged by the single-pass
mask; and a pixel whose iterative-path initial sigma is NaN never enters
the candidate set.  The iterative inner loop's recomputed sigma (line 275)
has no reset — see the counterexample. -/
theorem c6_sigma_sentinel_protection :
    (∀ s : F, sigma_reset s ≠ F.fin 0) ∧
    (∀ (d med : F) (maskedDiff : Bool) (p : TwoPointParams),
      single_pass_jump_mask d med F.nan maskedDiff p = false) ∧
    (∀ (pfdFlat : List F) (rn2 nframes : ℚ) (usable : ℤ) (p : TwoPointParams),
      iter_init_sigma pfdFlat rn2 nframes = F.nan →
      iter_candidate usable (nanmaxList (iter_init_ratio pfdFlat rn2 nframes)) p = false) := by
  refine ⟨?_, ?_, ?_⟩
  · intro s
    unfold sigma_reset
    by_cases h : s = F.fin 0 <;> simp [h]
  · intro d med maskedDiff p
    unfold single_pass_jump_mask
    rw [sample_ratio_sigma_nan, flt_nan_right]
    simp
  · intro pfdFlat rn2 nframes usable p h
    have hmax : nanmaxList (iter_init_ratio pfdFlat rn2 nframes) = F.nan := by
      apply nanmaxList_all_nan
      intro x hx
      simp only [iter_init_ratio, h, List.mem_map] at hx
      obtain ⟨d, _, rfl⟩ := hx
      rw [sample_ratio_sigma_nan]
      rfl
    rw [hmax]
    unfold iter_candidate
    rw [flt_nan_right, flt_nan_right, flt_nan_right]
    simp

/-- C6 witness: a pixel whose diffs are all missing has NaN initial sigma
and is excluded from the candidate set. -/
theorem c6_witness :
    iter_init_sigma [F.nan] 0 1 = F.nan ∧
    iter_candidate 0 (nanmaxList (iter_init_ratio [F.nan] 0 1)) exampleParams = false :=
  ⟨by decide,
   c6_sigma_sentinel_protection.2.2 [F.nan] 0 1 0 exampleParams (by decide)⟩

/-- When the refinement body accepts a new CR, the flipped mask entry was
previously unmarked (its post-clip diff and hence its ratio were not NaN),
so the kept count strictly decreases; lengths stay aligned. -/
theorem refine_body_decrease {p : TwoPointParams} {ndiffs : ℤ} {rn2 nframes : ℚ}
    {s s1 : PixState} (hlen : s.pfd.length = s.crMask.length)
    (hbody : refine_body p ndiffs rn2 nframes s = some s1)
    (hnew : s1.newCRFound = true) :
    trueCount s1.crMask < trueCount s.crMask ∧
    s1.pfd.length = s1.crMask.length := by
  have hplen : (body_pfd s).length = s.crMask.length := by
    simp [body_pfd, applyCrMask, hlen]
  have hrlen : (body_ratio rn2 nframes s).length = s.crMask.length := by
    simp [body_ratio, hplen]
  simp only [refine_body] at hbody
  rcases hna : nanargmax (body_ratio rn2 nframes s) with _ | idx
  · rw [hna] at hbody
    simp at hbody
  · rw [hna] at hbody
    have hidx : idx < (body_ratio rn2 nframes s).length := nanargmax_lt hna
    split at hbody
    · rename_i heq
      simp at heq
    · rename_i idx2 heq
      have hii : idx2 = idx := by
        injection heq with h2
        exact h2.symm
      rw [hii] at hbody
      split at hbody
      · rename_i hflt
        have hs1 : s1 = { pfd := body_pfd s, crMask := s.crMask.set idx false,
                          newCRFound := true } := by
          injection hbody with h
          exact h.symm
        have hidxm : idx < s.crMask.length := by omega
        have hidxp : idx < s.pfd.length := by omega
        have hidxp1 : idx < (body_pfd s).length := by omega
        have hmask : s.crMask.getD idx false = true := by
          by_contra hmf
          have hmf2 : s.crMask.getD idx false = false := by simpa using hmf
          have h1 : (body_pfd s).getD idx F.nan = F.nan := by
            unfold body_pfd
            rw [applyCrMask_getD hidxp hidxm, hmf2]
            simp
          have h2 : (body_ratio rn2 nframes s).getD idx F.nan = F.nan := by
            calc (body_ratio rn2 nframes s).getD idx F.nan
                = sample_ratio ((body_pfd s).getD idx F.nan) (body_median s)
                    (body_sigma rn2 nframes s) := by
                  unfold body_ratio
                  exact getD_map_F _ _ _ hidxp1
              _ = F.nan := by
                  rw [h1]
                  exact sample_ratio_nan_diff _ _
          rw [h2, flt_nan_right] at hflt
          exact Bool.false_ne_true hflt
        constructor
        · rw [hs1]
          exact count_true_set_false hidxm hmask
        · rw [hs1]
          simp [hplen]
      · rename_i hflt
        have hfalse : s1.newCRFound = false := by
          injection hbody with h
          rw [← h]
        rw [hnew] at hfalse
        exact absurd hfalse (by simp)

/-- C9 counterexample: the claim asserts every iteration either finds no
new jump (ending the loop) or marks one more previously-unmarked
difference as missing.  A third outcome exists: on the candidate pixel
examplePfd with read noise 0, the loop reaches a state where the guard
still holds (3 usable diffs remain and a CR was just found) but the
recomputed sigma is 0 and every remaining ratio is NaN, so np.nanargmax
raises ValueError (the embedded body returns none and the loop aborts with
err instead of terminating through the guard). -/
theorem c9_counterexample :
    refine_guard 5 { pfd := [F.fin 2, F.fin 0, F.fin 0, F.nan, F.nan],
                     crMask := [false, true, true, false, false],
                     newCRFound := true } = true ∧
    refine_body exampleParams 5 0 1
      { pfd := [F.fin 2, F.fin 0, F.fin 0, F.nan, F.nan],
        crMask := [false, true, true, false, false], newCRFound := true } = none ∧
    refine_loop exampleParams 5 0 1 10
      { pfd := examplePfd, crMask := [true, true, true, false, true],
        newCRFound := true } =
      RefineResult.err { pfd := [F.fin 2, F.fin 0, F.fin 0, F.nan, F.nan],
                         crMask := [false, true, true, false, false],
                         newCRFound := true } :=
  ⟨by decide, by decide, by decide⟩

/-- C9 (amended): the per-pixel refinement loop always stops.  An accepted
iteration flips a previously-unmarked mask entry (strictly decreasing the
kept count, see refine_body_decrease), a rejected iteration ends the loop,
and an all-NaN ratio slab aborts it (ValueError); hence kept-count + 2
fuel never runs out. -/
theorem c9_refine_loop_terminates (p : TwoPointParams) (ndiffs : ℤ)
    (rn2 nframes : ℚ) :
    (∀ s s1 : PixState, s.pfd.length = s.crMask.length →
      refine_body p ndiffs rn2 nframes s = some s1 → s1.newCRFound = true →
      trueCount s1.crMask < trueCount s.crMask) ∧
    (∀ (s : PixState) (fuel : ℕ), s.pfd.length = s.crMask.length →
      trueCount s.crMask + 2 ≤ fuel →
      (refine_loop p ndiffs rn2 nframes fuel s).isOutOfFuel = false) := by
  constructor
  · intro s s1 hlen hbody hnew
    exact (refine_body_decrease hlen hbody hnew).1
  · have key : ∀ n : ℕ, ∀ (s : PixState) (fuel : ℕ),
        s.pfd.length = s.crMask.length → trueCount s.crMask ≤ n →
        n + 2 ≤ fuel →
        (refine_loop p ndiffs rn2 nframes fuel s).isOutOfFuel = false := by
      intro n
      induction n using Nat.strong_induction_on with
      | _ n ih =>
        intro s fuel hlen hcount hfuel
        match fuel with
        | 0 => omega
        | f + 1 =>
          simp only [refine_loop]
          by_cases hg : refine_guard ndiffs s = true
          · rw [if_pos hg]
            rcases hb : refine_body p ndiffs rn2 nframes s with _ | s1
            · simp [RefineResult.isOutOfFuel]
            · cases hnew : s1.newCRFound
              · match f, hfuel with
                | f2 + 1, _ =>
                  simp only [refine_loop]
                  rw [if_neg (by simp [refine_guard, hnew])]
                  simp [RefineResult.isOutOfFuel]
              · have hdec := refine_body_decrease hlen hb hnew
                have hn1 : 1 ≤ n := by omega
                exact ih (n - 1) (by omega) s1 f hdec.2 (by omega) (by omega)
          · rw [if_neg hg]
            simp [RefineResult.isOutOfFuel]
    intro s fuel hlen hfuel
    exact key (trueCount s.crMask) s fuel hlen (le_refl _) hfuel

/-- C9 witness: the termination bound evaluated on the concrete candidate
pixel state (kept count 4, fuel 6 suffices; the run ends in err). -/
theorem c9_witness :
    (refine_loop exampleParams 5 0 1 6
      { pfd := examplePfd, crMask := [true, true, true, false, true],
        newCRFound := true }).isOutOfFuel = false :=
  (c9_refine_loop_terminates exampleParams 5 0 1).2
    { pfd := examplePfd, crMask := [true, true, true, false, true],
      newCRFound := true } 6 (by decide) (by decide)

theorem ok_to_write_iff {gd : Gdq} {p : TwoPointParams} {i g r c : ℕ} :
    ok_to_write gd p i g r c = true ↔
    gd i g r c &&& p.fl_sat = 0 ∧ gd i g r c &&& p.fl_dnu = 0 := by
  simp [ok_to_write]

theorem neighbor_inv_write {gdq0 : Gdq} {ratioAll : DataCube} {ndAxis : ℕ}
    {p : TwoPointParams} {l : List (ℕ × ℕ × ℕ × ℕ)} {gd : Gdq}
    (hinv : neighbor_inv gdq0 ratioAll ndAxis p l gd)
    {src : ℕ × ℕ × ℕ × ℕ} (hsrc : src ∈ l)
    (hwin : neighbor_window ratioAll ndAxis p src = true)
    {ti tg tr tc : ℕ} (hnb : is_spatial_neighbor src ti tg tr tc) :
    neighbor_inv gdq0 ratioAll ndAxis p l (write_jump gd p ti tg tr tc) := by
  intro i g r c
  unfold write_jump
  by_cases hok : ok_to_write gd p ti tg tr tc = true
  · rw [if_pos hok]
    unfold upd4
    by_cases hpos : i = ti ∧ g = tg ∧ r = tr ∧ c = tc
    · rw [if_pos hpos]
      obtain ⟨rfl, rfl, rfl, rfl⟩ := hpos
      have hok2 := ok_to_write_iff.mp hok
      rcases hinv i g r c with h | ⟨h, hs, hd, _⟩
      · right
        refine ⟨by rw [h], ?_, ?_, src, hsrc, hnb, hwin⟩
        · rw [← h]; exact hok2.1
        · rw [← h]; exact hok2.2
      · right
        refine ⟨?_, hs, hd, src, hsrc, hnb, hwin⟩
        rw [h, lor_lor_self]
    · rw [if_neg hpos]
      exact hinv i g r c
  · rw [if_neg hok]
    exact hinv i g r c

theorem neighbor_inv_ite_write {gdq0 : Gdq} {ratioAll : DataCube} {ndAxis : ℕ}
    {p : TwoPointParams} {l : List (ℕ × ℕ × ℕ × ℕ)} {gd : Gdq}
    (hinv : neighbor_inv gdq0 ratioAll ndAxis p l gd)
    {src : ℕ × ℕ × ℕ × ℕ} (hsrc : src ∈ l)
    (hwin : neighbor_window ratioAll ndAxis p src = true)
    (cond : Prop) [Decidable cond] {ti tg tr tc : ℕ}
    (hnb : cond → is_spatial_neighbor src ti tg tr tc) :
    neighbor_inv gdq0 ratioAll ndAxis p l
      (if cond then write_jump gd p ti tg tr tc else gd) := by
  by_cases hc : cond
  · rw [if_pos hc]
    exact neighbor_inv_write hinv hsrc hwin (hnb hc)
  · rw [if_neg hc]
    exact hinv

theorem neighbor_inv_step_writes {gdq0 : Gdq} {ratioAll : DataCube} {ndAxis : ℕ}
    {p : TwoPointParams} {l : List (ℕ × ℕ × ℕ × ℕ)} {nrows ncols : ℕ} {gd : Gdq}
    (hinv : neighbor_inv gdq0 ratioAll ndAxis p l gd)
    {src : ℕ × ℕ × ℕ × ℕ} (hsrc : src ∈ l)
    (hwin : neighbor_window ratioAll ndAxis p src = true) :
    neighbor_inv gdq0 ratioAll ndAxis p l
      (neighbor_step_writes nrows ncols p src gd) := by
  obtain ⟨i, g, r, c⟩ := src
  unfold neighbor_step_writes
  exact neighbor_inv_ite_write
    (neighbor_inv_ite_write
      (neighbor_inv_ite_write
        (neighbor_inv_ite_write hinv hsrc hwin _
          (fun hr => ⟨rfl, rfl, Or.inl ⟨by omega, rfl⟩⟩))
        hsrc hwin _ (fun _ => ⟨rfl, rfl, Or.inr (Or.inl ⟨rfl, rfl⟩)⟩))
      hsrc hwin _ (fun hc => ⟨rfl, rfl, Or.inr (Or.inr (Or.inl ⟨rfl, by omega⟩))⟩))
    hsrc hwin _ (fun _ => ⟨rfl, rfl, Or.inr (Or.inr (Or.inr ⟨rfl, rfl⟩))⟩)

theorem neighbor_inv_step {gdq0 : Gdq} {ratioAll : DataCube} {ndAxis : ℕ}
    {p : TwoPointParams} {l : List (ℕ × ℕ × ℕ × ℕ)} {nrows ncols : ℕ}
    {st : NeighborState} (hinv : neighbor_inv gdq0 ratioAll ndAxis p l st.gdq)
    {loc : ℕ × ℕ × ℕ × ℕ} (hloc : loc ∈ l) :
    neighbor_inv gdq0 ratioAll ndAxis p l
      (neighbor_step ratioAll ndAxis nrows ncols p st loc).gdq := by
  unfold neighbor_step
  by_cases hw : neighbor_window ratioAll ndAxis p loc = true
  · rw [if_pos hw]
    exact neighbor_inv_step_writes hinv hloc hw
  · rw [if_neg hw]
    exact hinv

theorem neighbor_inv_fold {gdq0 : Gdq} {ratioAll : DataCube} {ndAxis : ℕ}
    {p : TwoPointParams} {l : List (ℕ × ℕ × ℕ × ℕ)} {nrows ncols : ℕ} :
    ∀ (l2 : List (ℕ × ℕ × ℕ × ℕ)) (st : NeighborState),
    (∀ x ∈ l2, x ∈ l) → neighbor_inv gdq0 ratioAll ndAxis p l st.gdq →
    neighbor_inv gdq0 ratioAll ndAxis p l
      (l2.foldl (neighbor_step ratioAll ndAxis nrows ncols p) st).gdq := by
  intro l2
  induction l2 with
  | nil => intro st _ hinv; exact hinv
  | cons x xs ih =>
    intro st hsub hinv
    simp only [List.foldl_cons]
    exact ih _ (fun y hy => hsub y (List.mem_cons_of_mem x hy))
      (neighbor_inv_step hinv (hsub x (List.mem_cons_self x xs)))

theorem neighbor_step_rowBelow_preserve {ratioAll : DataCube}
    {ndAxis nrows ncols : ℕ} {p : TwoPointParams} {st : NeighborState}
    {loc : ℕ × ℕ × ℕ × ℕ} {i g c : ℕ}
    (h : st.rowBelow i g c = p.fl_jump) :
    (neighbor_step ratioAll ndAxis nrows ncols p st loc).rowBelow i g c =
      p.fl_jump := by
  unfold neighbor_step
  by_cases hw : neighbor_window ratioAll ndAxis p loc = true
  · rw [if_pos hw]
    by_cases hr : loc.2.2.1 = 0
    · simp only [if_pos hr]
      unfold upd3
      by_cases hpos : i = loc.1 ∧ g = loc.2.1 ∧ c = loc.2.2.2
      · rw [if_pos hpos]
      · rw [if_neg hpos]; exact h
    · simp only [if_neg hr]; exact h
  · rw [if_neg hw]; exact h

theorem neighbor_step_rowAbove_preserve {ratioAll : DataCube}
    {ndAxis nrows ncols : ℕ} {p : TwoPointParams} {st : NeighborState}
    {loc : ℕ × ℕ × ℕ × ℕ} {i g c : ℕ}
    (h : st.rowAbove i g c = p.fl_jump) :
    (neighbor_step ratioAll ndAxis nrows ncols p st loc).rowAbove i g c =
      p.fl_jump := by
  unfold neighbor_step
  by_cases hw : neighbor_window ratioAll ndAxis p loc = true
  · rw [if_pos hw]
    by_cases hr : loc.2.2.1 = nrows - 1
    · simp only [if_pos hr]
      unfold upd3
      by_cases hpos : i = loc.1 ∧ g = loc.2.1 ∧ c = loc.2.2.2
      · rw [if_pos hpos]
      · rw [if_neg hpos]; exact h
    · simp only [if_neg hr]; exact h
  · rw [if_neg hw]; exact h

theorem neighbor_fold_rowBelow_preserve {ratioAll : DataCube}
    {ndAxis nrows ncols : ℕ} {p : TwoPointParams} {i g c : ℕ} :
    ∀ (l2 : List (ℕ × ℕ × ℕ × ℕ)) (st : NeighborState),
    st.rowBelow i g c = p.fl_jump →
    (l2.foldl (neighbor_step ratioAll ndAxis nrows ncols p) st).rowBelow i g c =
      p.fl_jump := by
  intro l2
  induction l2 with
  | nil => intro st h; exact h
  | cons x xs ih =>
    intro st h
    simp only [List.foldl_cons]
    exact ih _ (neighbor_step_rowBelow_preserve h)

theorem neighbor_fold_rowAbove_preserve {ratioAll : DataCube}
    {ndAxis nrows ncols : ℕ} {p : TwoPointParams} {i g c : ℕ} :
    ∀ (l2 : List (ℕ × ℕ × ℕ × ℕ)) (st : NeighborState),
    st.rowAbove i g c = p.fl_jump →
    (l2.foldl (neighbor_step ratioAll ndAxis nrows ncols p) st).rowAbove i g c =
      p.fl_jump := by
  intro l2
  induction l2 with
  | nil => intro st h; exact h
  | cons x xs ih =>
    intro st h
    simp only [List.foldl_cons]
    exact ih _ (neighbor_step_rowAbove_preserve h)

theorem neighbor_step_rowBelow_set {ratioAll : DataCube}
    {ndAxis nrows ncols : ℕ} {p : TwoPointParams} {st : NeighborState}
    {i g c : ℕ} (hw : neighbor_window ratioAll ndAxis p (i, g, 0, c) = true) :
    (neighbor_step ratioAll ndAxis nrows ncols p st (i, g, 0, c)).rowBelow i g c =
      p.fl_jump := by
  unfold neighbor_step
  rw [if_pos hw]
  show (if (0 : ℕ) = 0 then upd3 st.rowBelow i g c p.fl_jump else st.rowBelow) i g c =
    p.fl_jump
  rw [if_pos rfl]
  unfold upd3
  rw [if_pos ⟨rfl, rfl, rfl⟩]

theorem neighbor_step_rowAbove_set {ratioAll : DataCube}
    {ndAxis nrows ncols : ℕ} {p : TwoPointParams} {st : NeighborState}
    {i g c : ℕ}
    (hw : neighbor_window ratioAll ndAxis p (i, g, nrows - 1, c) = true) :
    (neighbor_step ratioAll ndAxis nrows ncols p st (i, g, nrows - 1, c)).rowAbove
      i g c = p.fl_jump := by
  unfold neighbor_step
  rw [if_pos hw]
  show (if nrows - 1 = nrows - 1 then upd3 st.rowAbove i g c p.fl_jump
        else st.rowAbove) i g c = p.fl_jump
  rw [if_pos rfl]
  unfold upd3
  rw [if_pos ⟨rfl, rfl, rfl⟩]

/-- C7: during neighbor propagation, (1) a sample already flagged SAT or
DNU is never overwritten; (2) a sample newly carrying the jump flag is a
spatial neighbor of some enumerated jump whose preceding-group ratio lies
strictly between the min and max thresholds; (3, 4) a jump at row 0 (resp.
the last row) whose ratio is in the window records fl_jump into the
row-below (resp. row-above) spillover buffer instead of the out-of-bounds
quality sample. -/
theorem c7_neighbor_flagging (ni ng nrows ncols : ℕ) (ratioAll : DataCube)
    (gdq0 : Gdq) (rb0 ra0 : Buf3) (p : TwoPointParams)
    (hflag : p.flag_4_neighbors = true) :
    (∀ i g r c,
      (gdq0 i g r c &&& p.fl_sat ≠ 0 ∨ gdq0 i g r c &&& p.fl_dnu ≠ 0) →
      (flag_neighbors ni ng nrows ncols ratioAll gdq0 rb0 ra0 p).gdq i g r c =
        gdq0 i g r c) ∧
    (∀ i g r c,
      (flag_neighbors ni ng nrows ncols ratioAll gdq0 rb0 ra0 p).gdq i g r c &&&
        p.fl_jump ≠ 0 →
      gdq0 i g r c &&& p.fl_jump = 0 →
      ∃ src ∈ jump_locations ni ng nrows ncols gdq0 p.fl_jump,
        is_spatial_neighbor src i g r c ∧
        neighbor_window ratioAll (ng - 1) p src = true) ∧
    (∀ i g c, (i, g, 0, c) ∈ jump_locations ni ng nrows ncols gdq0 p.fl_jump →
      neighbor_window ratioAll (ng - 1) p (i, g, 0, c) = true →
      (flag_neighbors ni ng nrows ncols ratioAll gdq0 rb0 ra0 p).rowBelow i g c =
        p.fl_jump) ∧
    (∀ i g c,
      (i, g, nrows - 1, c) ∈ jump_locations ni ng nrows ncols gdq0 p.fl_jump →
      neighbor_window ratioAll (ng - 1) p (i, g, nrows - 1, c) = true →
      (flag_neighbors ni ng nrows ncols ratioAll gdq0 rb0 ra0 p).rowAbove i g c =
        p.fl_jump) := by
  have hinv0 : neighbor_inv gdq0 ratioAll (ng - 1) p
      (jump_locations ni ng nrows ncols gdq0 p.fl_jump)
      (NeighborState.mk gdq0 rb0 ra0).gdq := by
    intro i g r c
    exact Or.inl rfl
  have hfold : neighbor_inv gdq0 ratioAll (ng - 1) p
      (jump_locations ni ng nrows ncols gdq0 p.fl_jump)
      ((jump_locations ni ng nrows ncols gdq0 p.fl_jump).foldl
        (neighbor_step ratioAll (ng - 1) nrows ncols p)
        (NeighborState.mk gdq0 rb0 ra0)).gdq :=
    neighbor_inv_fold (jump_locations ni ng nrows ncols gdq0 p.fl_jump)
      (NeighborState.mk gdq0 rb0 ra0) (fun x hx => hx) hinv0
  have hfn : flag_neighbors ni ng nrows ncols ratioAll gdq0 rb0 ra0 p =
      (jump_locations ni ng nrows ncols gdq0 p.fl_jump).foldl
        (neighbor_step ratioAll (ng - 1) nrows ncols p)
        (NeighborState.mk gdq0 rb0 ra0) := by
    simp [flag_neighbors, hflag]
  refine ⟨?_, ?_, ?_, ?_⟩
  · intro i g r c hflagged
    rw [hfn]
    rcases hfold i g r c with h | ⟨_, hs, hd, _⟩
    · exact h
    · rcases hflagged with h2 | h2
      · exact absurd hs h2
      · exact absurd hd h2
  · intro i g r c hjump hold
    rw [hfn] at hjump
    rcases hfold i g r c with h | ⟨_, _, _, w⟩
    · rw [h] at hjump
      exact absurd hold hjump
    · exact w
  · intro i g c hmem hw
    rw [hfn]
    obtain ⟨l1, l2, hsplit⟩ := List.append_of_mem hmem
    rw [hsplit, List.foldl_append, List.foldl_cons]
    exact neighbor_fold_rowBelow_preserve l2 _ (neighbor_step_rowBelow_set hw)
  · intro i g c hmem hw
    rw [hfn]
    obtain ⟨l1, l2, hsplit⟩ := List.append_of_mem hmem
    rw [hsplit, List.foldl_append, List.foldl_cons]
    exact neighbor_fold_rowAbove_preserve l2 _ (neighbor_step_rowAbove_set hw)

/-- C7 witness: a single jump at (integration 0, group 1, row 0, column 0)
of a 1x2x2x1 cube with an in-window preceding ratio spills into the
row-below buffer and leaves SAT/DNU samples untouched. -/
theorem c7_witness :
    (∀ i g r c,
      ((fun _ g2 r2 _ => if g2 = 1 ∧ r2 = 0 then 4 else 0 : Gdq) i g r c &&&
          exampleParams.fl_sat ≠ 0 ∨
        (fun _ g2 r2 _ => if g2 = 1 ∧ r2 = 0 then 4 else 0 : Gdq) i g r c &&&
          exampleParams.fl_dnu ≠ 0) →
      (flag_neighbors 1 2 2 1 (fun _ _ _ _ => F.fin 50)
        (fun _ g2 r2 _ => if g2 = 1 ∧ r2 = 0 then 4 else 0)
        (fun _ _ _ => 0) (fun _ _ _ => 0) exampleParams).gdq i g r c =
        (fun _ g2 r2 _ => if g2 = 1 ∧ r2 = 0 then 4 else 0 : Gdq) i g r c) ∧
    (∀ i g r c,
      (flag_neighbors 1 2 2 1 (fun _ _ _ _ => F.fin 50)
        (fun _ g2 r2 _ => if g2 = 1 ∧ r2 = 0 then 4 else 0)
        (fun _ _ _ => 0) (fun _ _ _ => 0) exampleParams).gdq i g r c &&&
        exampleParams.fl_jump ≠ 0 →
      (fun _ g2 r2 _ => if g2 = 1 ∧ r2 = 0 then 4 else 0 : Gdq) i g r c &&&
        exampleParams.fl_jump = 0 →
      ∃ src ∈ jump_locations 1 2 2 1
          (fun _ g2 r2 _ => if g2 = 1 ∧ r2 = 0 then 4 else 0)
          exampleParams.fl_jump,
        is_spatial_neighbor src i g r c ∧
        neighbor_window (fun _ _ _ _ => F.fin 50) (2 - 1) exampleParams src =
          true) ∧
    (∀ i g c,
      (i, g, 0, c) ∈ jump_locations 1 2 2 1
          (fun _ g2 r2 _ => if g2 = 1 ∧ r2 = 0 then 4 else 0)
          exampleParams.fl_jump →
      neighbor_window (fun _ _ _ _ => F.fin 50) (2 - 1) exampleParams
          (i, g, 0, c) = true →
      (flag_neighbors 1 2 2 1 (fun _ _ _ _ => F.fin 50)
        (fun _ g2 r2 _ => if g2 = 1 ∧ r2 = 0 then 4 else 0)
        (fun _ _ _ => 0) (fun _ _ _ => 0) exampleParams).rowBelow i g c =
        exampleParams.fl_jump) ∧
    (∀ i g c,
      (i, g, 2 - 1, c) ∈ jump_locations 1 2 2 1
          (fun _ g2 r2 _ => if g2 = 1 ∧ r2 = 0 then 4 else 0)
          exampleParams.fl_jump →
      neighbor_window (fun _ _ _ _ => F.fin 50) (2 - 1) exampleParams
          (i, g, 2 - 1, c) = true →
      (flag_neighbors 1 2 2 1 (fun _ _ _ _ => F.fin 50)
        (fun _ g2 r2 _ => if g2 = 1 ∧ r2 = 0 then 4 else 0)
        (fun _ _ _ => 0) (fun _ _ _ => 0) exampleParams).rowAbove i g c =
        exampleParams.fl_jump) :=
  c7_neighbor_flagging 1 2 2 1 (fun _ _ _ _ => F.fin 50)
    (fun _ g2 r2 _ => if g2 = 1 ∧ r2 = 0 then 4 else 0)
    (fun _ _ _ => 0) (fun _ _ _ => 0) exampleParams (by decide)

theorem jump_or_inv_write {gd0 : Gdq} {p : TwoPointParams} {gd : Gdq}
    (hinv : jump_or_inv gd0 p gd) (ti tg tr tc : ℕ) :
    jump_or_inv gd0 p (write_jump gd p ti tg tr tc) := by
  intro i g r c
  unfold write_jump
  by_cases hok : ok_to_write gd p ti tg tr tc = true
  · rw [if_pos hok]
    unfold upd4
    by_cases hpos : i = ti ∧ g = tg ∧ r = tr ∧ c = tc
    · rw [if_pos hpos]
      obtain ⟨rfl, rfl, rfl, rfl⟩ := hpos
      have hok2 := ok_to_write_iff.mp hok
      rcases hinv i g r c with h | ⟨h, hs, hd⟩
      · exact Or.inr ⟨by rw [h], by rw [← h]; exact hok2.1, by rw [← h]; exact hok2.2⟩
      · exact Or.inr ⟨by rw [h, lor_lor_self], hs, hd⟩
    · rw [if_neg hpos]; exact hinv i g r c
  · rw [if_neg hok]; exact hinv i g r c

theorem jump_or_inv_fold_writes {gd0 : Gdq} {p : TwoPointParams} {i r c : ℕ} :
    ∀ (ks : List ℕ) (gd : Gdq), jump_or_inv gd0 p gd →
    jump_or_inv gd0 p (ks.foldl (fun gd2 kk => write_jump gd2 p i kk r c) gd) := by
  intro ks
  induction ks with
  | nil => intro gd h; exact h
  | cons k2 ks2 ih =>
    intro gd h
    simp only [List.foldl_cons]
    exact ih _ (jump_or_inv_write h i k2 r c)

theorem write_jump_preserves_jump {gd : Gdq} {p : TwoPointParams}
    {ti tg tr tc i g r c : ℕ} (h : gd i g r c &&& p.fl_jump ≠ 0) :
    write_jump gd p ti tg tr tc i g r c &&& p.fl_jump ≠ 0 := by
  unfold write_jump
  by_cases hok : ok_to_write gd p ti tg tr tc = true
  · rw [if_pos hok]
    unfold upd4
    by_cases hpos : i = ti ∧ g = tg ∧ r = tr ∧ c = tc
    · rw [if_pos hpos]
      obtain ⟨rfl, rfl, rfl, rfl⟩ := hpos
      exact land_lor_mono _ h
    · rw [if_neg hpos]; exact h
  · rw [if_neg hok]; exact h

theorem fold_writes_preserves_jump {p : TwoPointParams} {i2 r2 c2 i g r c : ℕ} :
    ∀ (ks : List ℕ) (gd : Gdq), gd i g r c &&& p.fl_jump ≠ 0 →
    (ks.foldl (fun gd2 kk => write_jump gd2 p i2 kk r2 c2) gd) i g r c &&&
      p.fl_jump ≠ 0 := by
  intro ks
  induction ks with
  | nil => intro gd h; exact h
  | cons k2 ks2 ih =>
    intro gd h
    simp only [List.foldl_cons]
    exact ih _ (write_jump_preserves_jump h)

theorem fold_writes_sets_jump {gd0 : Gdq} {p : TwoPointParams}
    (hjs : p.fl_jump &&& p.fl_sat = 0) (hjd : p.fl_jump &&& p.fl_dnu = 0)
    (hj0 : p.fl_jump ≠ 0) {i r c kk : ℕ}
    (hs : gd0 i kk r c &&& p.fl_sat = 0) (hd : gd0 i kk r c &&& p.fl_dnu = 0) :
    ∀ (ks : List ℕ) (gd : Gdq), jump_or_inv gd0 p gd → kk ∈ ks →
    (ks.foldl (fun gd2 k2 => write_jump gd2 p i k2 r c) gd) i kk r c &&&
      p.fl_jump ≠ 0 := by
  intro ks
  induction ks with
  | nil => intro gd _ hmem; simp at hmem
  | cons k2 ks2 ih =>
    intro gd hinv hmem
    simp only [List.foldl_cons]
    rcases List.mem_cons.mp hmem with heq | hmem2
    · subst heq
      have hok : ok_to_write gd p i kk r c = true := by
        apply ok_to_write_iff.mpr
        rcases hinv i kk r c with h | ⟨h, hs2, hd2⟩
        · rw [h]; exact ⟨hs, hd⟩
        · rw [h, land_lor_left hjs, land_lor_left hjd]; exact ⟨hs, hd⟩
      have hset : (write_jump gd p i kk r c) i kk r c &&& p.fl_jump ≠ 0 := by
        unfold write_jump
        rw [if_pos hok]
        unfold upd4
        rw [if_pos ⟨rfl, rfl, rfl, rfl⟩]
        exact land_lor_self_ne_zero _ hj0
      exact fold_writes_preserves_jump ks2 _ hset
    · exact ih (write_jump gd p i k2 r c) (jump_or_inv_write hinv i k2 r c) hmem2

theorem jump_or_inv_tier_step {gd0 : Gdq} {p : TwoPointParams} {ng : ℕ}
    {eJump : DataCube} {cthres : ℚ} {cgroup : ℕ} {gd : Gdq}
    (hinv : jump_or_inv gd0 p gd) (loc : ℕ × ℕ × ℕ × ℕ) :
    jump_or_inv gd0 p (tier_step ng eJump cthres cgroup p gd loc) := by
  obtain ⟨i2, g2, r2, c2⟩ := loc
  unfold tier_step
  dsimp only
  by_cases hcond : fle (F.fin cthres)
      (eJump i2 (if g2 = 0 then ng - 1 - 1 else g2 - 1) r2 c2) = true
  · rw [if_pos hcond]
    exact jump_or_inv_fold_writes _ _ hinv
  · rw [if_neg hcond]
    exact hinv

theorem jump_or_inv_tier_fold {gd0 : Gdq} {p : TwoPointParams} {ng : ℕ}
    {eJump : DataCube} {cthres : ℚ} {cgroup : ℕ} :
    ∀ (ls : List (ℕ × ℕ × ℕ × ℕ)) (gd : Gdq), jump_or_inv gd0 p gd →
    jump_or_inv gd0 p (ls.foldl (tier_step ng eJump cthres cgroup p) gd) := by
  intro ls
  induction ls with
  | nil => intro gd h; exact h
  | cons x xs ih =>
    intro gd h
    simp only [List.foldl_cons]
    exact ih _ (jump_or_inv_tier_step h x)

theorem tier_step_preserves_jump {p : TwoPointParams} {ng : ℕ}
    {eJump : DataCube} {cthres : ℚ} {cgroup : ℕ} {gd : Gdq}
    {loc : ℕ × ℕ × ℕ × ℕ} {i g r c : ℕ}
    (h : gd i g r c &&& p.fl_jump ≠ 0) :
    tier_step ng eJump cthres cgroup p gd loc i g r c &&& p.fl_jump ≠ 0 := by
  obtain ⟨i2, g2, r2, c2⟩ := loc
  unfold tier_step
  dsimp only
  by_cases hcond : fle (F.fin cthres)
      (eJump i2 (if g2 = 0 then ng - 1 - 1 else g2 - 1) r2 c2) = true
  · rw [if_pos hcond]
    exact fold_writes_preserves_jump _ _ h
  · rw [if_neg hcond]
    exact h

theorem tier_fold_preserves_jump {p : TwoPointParams} {ng : ℕ}
    {eJump : DataCube} {cthres : ℚ} {cgroup : ℕ} {i g r c : ℕ} :
    ∀ (ls : List (ℕ × ℕ × ℕ × ℕ)) (gd : Gdq), gd i g r c &&& p.fl_jump ≠ 0 →
    (ls.foldl (tier_step ng eJump cthres cgroup p) gd) i g r c &&&
      p.fl_jump ≠ 0 := by
  intro ls
  induction ls with
  | nil => intro gd h; exact h
  | cons x xs ih =>
    intro gd h
    simp only [List.foldl_cons]
    exact ih _ (tier_step_preserves_jump h)

theorem mem_jump_locations {ni ng nr nc : ℕ} {gdq : Gdq} {flJump : ℕ}
    {i g r c : ℕ} :
    (i, g, r, c) ∈ jump_locations ni ng nr nc gdq flJump ↔
    i < ni ∧ g < ng ∧ r < nr ∧ c < nc ∧ gdq i g r c &&& flJump ≠ 0 := by
  simp only [jump_locations, List.mem_flatMap, List.mem_filterMap, List.mem_range]
  constructor
  · rintro ⟨i2, hi2, g2, hg2, r2, hr2, c2, hc2, hopt⟩
    by_cases hbit : gdq i2 g2 r2 c2 &&& flJump ≠ 0
    · rw [if_pos hbit] at hopt
      simp only [Option.some.injEq, Prod.mk.injEq] at hopt
      obtain ⟨rfl, rfl, rfl, rfl⟩ := hopt
      exact ⟨hi2, hg2, hr2, hc2, hbit⟩
    · rw [if_neg hbit] at hopt
      exact absurd hopt (by simp)
  · rintro ⟨hi, hg, hr, hc, hbit⟩
    exact ⟨i, hi, g, hg, r, hr, c, hc, by rw [if_pos hbit]⟩

/-- C8: after-jump flagging.  (1) after_jump applies the two configured
(energy, count) tiers in order.  For one tier, which is skipped unless its
group count is positive: (2) a sample already flagged SAT or DNU is never
overwritten; (3) for every sample jump-flagged at the start of the tier
(so, for tier two, including flags added by neighbor propagation and tier
one) whose preceding-group retained e_jump value is >= the tier energy
threshold, every group kk in [group, min(group+cgroup+1, ngroups)) of the
same pixel and integration that is not SAT/DNU-flagged ends with the jump
flag OR'd in. -/
theorem c8_after_jump_tiers (ni ng nr nc : ℕ) (eJump : DataCube)
    (p : TwoPointParams) (gd : Gdq) (cthres : ℚ) (cgroup : ℕ)
    (hjs : p.fl_jump &&& p.fl_sat = 0) (hjd : p.fl_jump &&& p.fl_dnu = 0)
    (hj0 : p.fl_jump ≠ 0) :
    (after_jump ni ng nr nc eJump p gd =
      after_jump_tier ni ng nr nc eJump p
        (after_jump_tier ni ng nr nc eJump p gd
          (p.after_jump_flag_e1, p.after_jump_flag_n1))
        (p.after_jump_flag_e2, p.after_jump_flag_n2)) ∧
    (∀ i g r c,
      (gd i g r c &&& p.fl_sat ≠ 0 ∨ gd i g r c &&& p.fl_dnu ≠ 0) →
      after_jump_tier ni ng nr nc eJump p gd (cthres, cgroup) i g r c =
        gd i g r c) ∧
    (∀ i g r c, i < ni → g < ng → r < nr → c < nc →
      gd i g r c &&& p.fl_jump ≠ 0 → 0 < cgroup →
      fle (F.fin cthres) (eJump i (if g = 0 then ng - 1 - 1 else g - 1) r c) =
        true →
      ∀ kk, g ≤ kk → kk < min (g + cgroup + 1) ng →
        gd i kk r c &&& p.fl_sat = 0 → gd i kk r c &&& p.fl_dnu = 0 →
        after_jump_tier ni ng nr nc eJump p gd (cthres, cgroup) i kk r c &&&
          p.fl_jump ≠ 0) := by
  refine ⟨rfl, ?_, ?_⟩
  · intro i g r c hflag
    unfold after_jump_tier
    dsimp only
    by_cases hn : 0 < cgroup
    · rw [if_pos hn]
      have hinv : jump_or_inv gd p
          ((jump_locations ni ng nr nc gd p.fl_jump).foldl
            (tier_step ng eJump cthres cgroup p) gd) :=
        jump_or_inv_tier_fold (jump_locations ni ng nr nc gd p.fl_jump) gd
          (fun _ _ _ _ => Or.inl rfl)
      rcases hinv i g r c with h | ⟨_, hs, hd⟩
      · exact h
      · rcases hflag with h2 | h2
        · exact absurd hs h2
        · exact absurd hd h2
    · rw [if_neg hn]
  · intro i g r c hi hg hr hc hjump hn hfle kk hkk1 hkk2 hs hd
    unfold after_jump_tier
    dsimp only
    rw [if_pos hn]
    have hmem : (i, g, r, c) ∈ jump_locations ni ng nr nc gd p.fl_jump :=
      mem_jump_locations.mpr ⟨hi, hg, hr, hc, hjump⟩
    obtain ⟨l1, l2, hsplit⟩ := List.append_of_mem hmem
    rw [hsplit, List.foldl_append, List.foldl_cons]
    have hinv1 : jump_or_inv gd p
        (l1.foldl (tier_step ng eJump cthres cgroup p) gd) :=
      jump_or_inv_tier_fold l1 gd (fun _ _ _ _ => Or.inl rfl)
    have hset : tier_step ng eJump cthres cgroup p
        (l1.foldl (tier_step ng eJump cthres cgroup p) gd) (i, g, r, c) i kk r c
        &&& p.fl_jump ≠ 0 := by
      unfold tier_step
      dsimp only
      rw [if_pos hfle]
      apply fold_writes_sets_jump hjs hjd hj0 hs hd _ _ hinv1
      rw [List.mem_range'_1]
      omega
    exact tier_fold_preserves_jump l2 _ hset

/-- C8 witness: with a jump at group 1 of a 4-group single-pixel cube, an
in-threshold e_jump value and tier (energy 10, count 2), group 2 ends
jump-flagged. -/
theorem c8_witness :
    after_jump_tier 1 4 1 1 (fun _ _ _ _ => F.fin 50) exampleParams
      (fun _ g _ _ => if g = 1 then 4 else 0) (10, 2) 0 2 0 0 &&&
      exampleParams.fl_jump ≠ 0 :=
  (c8_after_jump_tiers 1 4 1 1 (fun _ _ _ _ => F.fin 50) exampleParams
    (fun _ g _ _ => if g = 1 then 4 else 0) 10 2 (by decide) (by decide)
    (by decide)).2.2
    0 1 0 0 (by decide) (by decide) (by decide) (by decide) (by decide)
    (by decide) (by decide) 2 (by decide) (by decide) (by decide) (by decide)

end Stcal
